import Mathlib

/-!
Verification development for the `translateppt` backend.

The definitions below are a shallow embedding of `backend/translator.py` and
`backend/document_handler.py`.  Python strings are modelled as Lean `String`
with all operations expressed over the underlying character list (`.data`);
the Python standard-library functions that the backend calls but does not
define (`json.loads`, `re.search`, the HTTP client) are abstracted as
function parameters of the embedded pipeline.  Machine-independent data
(counts, indices) are Lean `Nat`/`Int`.  Loops are embedded with an explicit
fuel argument equal to a bound that the loop can never exceed, so that every
definition is executable by the kernel.
-/

/-! ## Python string primitives (ASCII behaviour), used by `translator.py` -/

/-- Characters treated as whitespace by Python `str.strip` (ASCII subset). -/
def pyWs (c : Char) : Bool :=
  c = ' ' || c = '\t' || c = '\n' || c = '\r' || c = '\x0b' || c = '\x0c'

/-- Python `str.lstrip()`. -/
def pyLstrip (s : String) : String := String.mk (s.data.dropWhile pyWs)

/-- Python `str.rstrip()`. -/
def pyRstrip (s : String) : String := String.mk ((s.data.reverse.dropWhile pyWs).reverse)

/-- Python `str.strip()`. -/
def pyStrip (s : String) : String := pyLstrip (pyRstrip s)

/-- The closing punctuation string `",.;:!?)]}"` from `_find_merge_index`
and `_concat_segments`. -/
def closingChars : List Char := [',', '.', ';', ':', '!', '?', ')', ']', '}']

/-- The terminal sentence punctuation tuple `(".", "!", "?", "。", "！", "？")`
from `_find_merge_index`. -/
def terminalChars : List Char := ['.', '!', '?', '。', '！', '？']

/-- `previous.rstrip().endswith((".", "!", "?", "。", "！", "？"))`: every listed
suffix is a single character, so this is a last-character test. -/
def endsWithTerminal (s : String) : Bool :=
  match (pyRstrip s).data.getLast? with
  | some c => terminalChars.contains c
  | none => false

/-- Does the first character of `s` belong to `closingChars`? -/
def headIsClosing (s : String) : Bool :=
  match s.data with
  | c :: _ => closingChars.contains c
  | [] => false

/-- Python `str.islower()` on a single character (ASCII behaviour). -/
def isLowerAscii (c : Char) : Bool := 'a' ≤ c && c ≤ 'z'

/-- Does `s` start with an ASCII lowercase letter? -/
def headIsLower (s : String) : Bool :=
  match s.data with
  | c :: _ => isLowerAscii c
  | [] => false

/-! ## `translator.py`: merge / pad / reconcile machinery -/

/-- The loop body of `OpenRouterTranslator._find_merge_index`:
scan `rest` (the items from position `idx` on, with `prev` the item just
before them); return `idx - 1` as soon as one of the signals fires, and
`fallback` (`max(0, len(items) - 2)`) if the scan runs off the end. -/
def find_merge_index_go (prev : String) (rest : List String) (idx fallback : Nat) : Nat :=
  match rest with
  | [] => fallback
  | item :: rest' =>
    match (pyLstrip item).data with
    | [] => idx - 1
    | firstChar :: _ =>
      if closingChars.contains firstChar then idx - 1
      else if !prev.data.isEmpty && !endsWithTerminal prev then idx - 1
      else if isLowerAscii firstChar then idx - 1
      else find_merge_index_go item rest' (idx + 1) fallback

/-- `OpenRouterTranslator._find_merge_index`. -/
def find_merge_index (items : List String) : Nat :=
  match items with
  | [] => 0
  | x :: xs => find_merge_index_go x xs 1 (items.length - 2)

/-- `OpenRouterTranslator._concat_segments`. -/
def concat_segments (left right : String) : String :=
  let l := pyRstrip left
  let r := pyLstrip right
  if l = "" then r
  else if r = "" then l
  else if headIsClosing r then l ++ r
  else l ++ " " ++ r

/-- One iteration of the `_merge_extra_items` while-loop at merge position
`idx`: `merged[idx] = join(merged[idx], merged.pop(idx + 1))` (the right-hand
side reads both entries before the pop). -/
def merge_at (items : List String) (idx : Nat) (join : String → String → String) : List String :=
  items.take idx ++ [join (items.getD idx "") (items.getD (idx + 1) "")] ++ items.drop (idx + 2)

/-- The while-loop of `OpenRouterTranslator._merge_extra_items`, with fuel.
Each iteration removes exactly one list entry, so fuel `items.length`
(supplied by `merge_extra_items`) can never be exhausted. -/
def merge_extra_items_go : Nat → List String → Nat → List String
  | 0, items, _ => items
  | fuel + 1, items, expected =>
    if expected < items.length ∧ 1 < items.length then
      merge_extra_items_go fuel (merge_at items (find_merge_index items) concat_segments) expected
    else items

/-- `OpenRouterTranslator._merge_extra_items`. -/
def merge_extra_items (items : List String) (expected : Nat) : List String :=
  merge_extra_items_go items.length items expected

/-- The for-loop of `OpenRouterTranslator._pad_missing_items`
(`for idx in range(len(padded), len(originals)): padded.append(originals[idx])`),
with fuel; fuel `originals.length` can never be exhausted. -/
def pad_missing_items_go : Nat → List String → List String → Nat → List String
  | 0, padded, _, _ => padded
  | fuel + 1, padded, originals, idx =>
    if h : idx < originals.length then
      pad_missing_items_go fuel (padded ++ [originals.get ⟨idx, h⟩]) originals (idx + 1)
    else padded

/-- `OpenRouterTranslator._pad_missing_items`. -/
def pad_missing_items (items originals : List String) : List String :=
  pad_missing_items_go originals.length items originals items.length

/-- The tolerance `max(3, expected // 5 + 1)` from
`_reconcile_translation_count`. -/
def reconcile_tolerance (expected : Nat) : Nat := max 3 (expected / 5 + 1)

/-- `OpenRouterTranslator._reconcile_translation_count`. -/
def reconcile_translation_count (translations original_texts : List String) : List String :=
  let expected := original_texts.length
  let current := translations.length
  if expected = 0 ∨ current = expected then translations
  else if reconcile_tolerance expected < ((current : Int) - (expected : Int)).natAbs then
    translations
  else
    let adjusted := if expected < current then merge_extra_items translations expected else translations
    if adjusted.length < expected then pad_missing_items adjusted original_texts else adjusted

/-! ## `translator.py`: response extraction and the translate pipeline -/

/-- Failure modes of the embedded pipeline, mirroring the points where
`translator.py` raises `TranslationError`. -/
inductive TranslationError where
  /-- `requests.post` raised (network failure). -/
  | network
  /-- non-2xx HTTP status. -/
  | httpStatus
  /-- the HTTP response body lacked `choices[0].message.content`. -/
  | responsePayload
  /-- `_extract_translations` fell through all three parse steps. -/
  | parse
  /-- `Translation count mismatch between request and response`. -/
  | countMismatch
  /-- a string method was applied to a non-string item (Python would raise
  `AttributeError`); unreachable from `translate_texts`. -/
  | pyTypeMismatch
deriving DecidableEq

/-- Values that Python's `json.loads` can produce (floats omitted: the
pipeline never inspects numeric payloads). -/
inductive PyValue where
  | str (s : String)
  | int (n : Int)
  | bool (b : Bool)
  | none
  | list (elems : List PyValue)

/-- Python `repr` as used by `str(list)`; string escaping inside `repr` is
not refined (no theorem depends on it: the pipeline only applies `str` to
values that are already strings). -/
def pyRepr : PyValue → String
  | .str s => "\x27" ++ s ++ "\x27"
  | .int n => toString n
  | .bool b => if b then "True" else "False"
  | .none => "None"
  | .list xs => "[" ++ String.intercalate ", " (pyReprList xs) ++ "]"
where
  pyReprList : List PyValue → List String
    | [] => []
    | x :: xs => pyRepr x :: pyReprList xs

/-- Python `str(item)` as applied in `translate_texts`'s final list
comprehension; the identity on values that are already strings. -/
def pyStr : PyValue → String
  | .str s => s
  | v => pyRepr v

/-- The acceptance test repeated at each step of `_extract_translations`:
`isinstance(parsed, list) and (expected_count == len(parsed) or expected_count == 0)`.
A `Option.none` argument models `json.JSONDecodeError`. -/
def acceptParsed (expected_count : Nat) : Option PyValue → Option (List PyValue)
  | some (.list xs) => if expected_count = xs.length ∨ expected_count = 0 then some xs else none
  | _ => none

/-- `OpenRouterTranslator._find_json_array`: the depth-tracked scan from the
first `[`, accumulating `message[start:idx+1]`.  `jsonLoads` is not involved
here; the function only cuts out a candidate substring. -/
def find_json_array_go : List Char → Bool → Bool → Int → List Char → Option (List Char)
  | [], _, _, _, _ => none
  | c :: rest, inString, escape, depth, acc =>
    let acc2 := acc ++ [c]
    let inString2 := if c = '"' && !escape then !inString else inString
    if inString2 then
      let escape2 := c = '\\' && !escape
      find_json_array_go rest inString2 escape2 depth acc2
    else
      let escape2 := c = '\\' && !escape
      if c = '[' then find_json_array_go rest inString2 escape2 (depth + 1) acc2
      else if c = ']' then
        if depth - 1 = 0 then some acc2
        else find_json_array_go rest inString2 escape2 (depth - 1) acc2
      else find_json_array_go rest inString2 escape2 depth acc2

/-- `message.find('[')`: drop everything before the first `[`. -/
def fromFirstLbracket : List Char → Option (List Char)
  | [] => none
  | c :: rest => if c = '[' then some (c :: rest) else fromFirstLbracket rest

/-- `OpenRouterTranslator._find_json_array`. -/
def find_json_array (message : String) : Option String :=
  match fromFirstLbracket message.data with
  | some fromBracket => (find_json_array_go fromBracket false false 0 []).map String.mk
  | none => none

/-- `OpenRouterTranslator._extract_translations`.  `jsonLoads` abstracts the
standard-library `json.loads` (returning `Option.none` on a decode error);
`fencedSearch` abstracts `re.search(r"```(?:json)?\s*(\[[\s\S]*?\])\s*```", ...)`
returning the captured group. -/
def extract_translations (jsonLoads : String → Option PyValue)
    (fencedSearch : String → Option String)
    (message : String) (expected_count : Nat) : Except TranslationError (List PyValue) :=
  match acceptParsed expected_count (jsonLoads message) with
  | some xs => .ok xs
  | none =>
    match (fencedSearch message).bind (fun snippet => acceptParsed expected_count (jsonLoads snippet)) with
    | some xs => .ok xs
    | none =>
      match (find_json_array message).bind (fun snippet => acceptParsed expected_count (jsonLoads snippet)) with
      | some xs => .ok xs
      | none => .error .parse

/-- Are all parsed items strings?  (`_reconcile_translation_count` and its
helpers apply Python string methods to the items; on a non-string item the
interpreter would raise, modelled as `TranslationError.pyTypeMismatch`.) -/
def allStrings : List PyValue → Option (List String)
  | [] => some []
  | .str s :: rest => (allStrings rest).map (s :: ·)
  | _ => none

/-- Lines 71-76 of `translate_texts`: reconcile when the count differs, then
re-check the count and raise `countMismatch` if it still differs. -/
def checked_reconcile (translations texts : List String) : Except TranslationError (List String) :=
  let reconciled :=
    if translations.length ≠ texts.length then reconcile_translation_count translations texts
    else translations
  if reconciled.length ≠ texts.length then .error .countMismatch else .ok reconciled

/-- Lines 70-76 of `translate_texts`, starting from the stripped message
content: extract, reconcile on a count mismatch, re-check the count, and
convert every item with `str`.  When the extracted count already matches, the
reconcile/check steps are the identity and only `str` is applied. -/
def translate_from_content (jsonLoads : String → Option PyValue)
    (fencedSearch : String → Option String)
    (content : String) (texts : List String) : Except TranslationError (List String) :=
  match extract_translations jsonLoads fencedSearch content texts.length with
  | .error e => .error e
  | .ok parsed =>
    if parsed.length = texts.length then .ok (parsed.map pyStr)
    else
      match allStrings parsed with
      | some ss => checked_reconcile ss texts
      | none => .error .pyTypeMismatch

/-- `TranslationConfig` from `translator.py`. -/
structure TranslationConfig where
  api_key : String
  model : String
  source_lang : Option String
  target_lang : String
  temperature : Rat
deriving DecidableEq

/-- `settings.default_model` from `config.py`. -/
def default_model : String := "anthropic/claude-3.5-sonnet"

/-- `OpenRouterTranslator._mock_translate`. -/
def mock_translate (config : TranslationConfig) (text : String) : String :=
  let target := if config.target_lang = "" then "translated" else config.target_lang
  "[" ++ target ++ "] " ++ text

/-- One message of the chat payload. -/
structure ChatMessage where
  role : String
  content : String
deriving DecidableEq

/-- The request payload built by `_build_request_payload`. -/
structure RequestPayload where
  model : String
  messages : List ChatMessage
  temperature : Rat
deriving DecidableEq

/-- Escaping of one character by `json.dumps(..., ensure_ascii=False)`. -/
def jsonEscapeChar (c : Char) : List Char :=
  if c = '"' then ['\\', '"']
  else if c = '\\' then ['\\', '\\']
  else if c = '\n' then ['\\', 'n']
  else if c = '\t' then ['\\', 't']
  else if c = '\r' then ['\\', 'r']
  else if c = '\x08' then ['\\', 'b']
  else if c = '\x0c' then ['\\', 'f']
  else if c.toNat < 32 then
    ['\\', 'u', '0', '0',
      (if c.toNat / 16 < 10 then Char.ofNat (48 + c.toNat / 16) else Char.ofNat (87 + c.toNat / 16)),
      (if c.toNat % 16 < 10 then Char.ofNat (48 + c.toNat % 16) else Char.ofNat (87 + c.toNat % 16))]
  else [c]

/-- `json.dumps(list(texts), ensure_ascii=False)` for a list of strings. -/
def json_dump_strings (texts : List String) : String :=
  "[" ++
    String.intercalate ", "
      (texts.map (fun t => "\"" ++ String.mk ((t.data.map jsonEscapeChar).flatten) ++ "\"")) ++
  "]"

/-- `OpenRouterTranslator._build_request_payload`. -/
def build_request_payload (config : TranslationConfig) (texts : List String) : RequestPayload :=
  let source :=
    match config.source_lang with
    | some s => if s = "" then "auto-detect" else s
    | none => "auto-detect"
  let target := config.target_lang
  let instructions :=
    "You are a professional translation engine. Translate each input string from " ++
    source ++ " to " ++ target ++
    ". Preserve placeholders such as \x7bvariable\x7d or HTML tags. " ++
    "Return ONLY a valid JSON array of translated strings matching the input order with no extra text."
  { model := if config.model = "" then default_model else config.model
    messages :=
      [ { role := "system", content := instructions }
      , { role := "system",
          content := "Do not include reasoning, commentary, or code fences. Respond with the JSON array only." }
      , { role := "user", content := json_dump_strings texts } ]
    temperature := config.temperature }

/-- `OpenRouterTranslator.translate_texts`.  `provider` abstracts lines
52-68: posting the payload, the status check and the extraction of the
stripped `choices[0].message.content` (its `.error` cases model `network`,
`httpStatus` and `responsePayload` failures). -/
def translate_texts (config : TranslationConfig)
    (provider : RequestPayload → Except TranslationError String)
    (jsonLoads : String → Option PyValue)
    (fencedSearch : String → Option String)
    (texts : List String) : Except TranslationError (List String) :=
  if texts = [] then .ok []
  else if config.api_key = "" then .ok (texts.map (mock_translate config))
  else
    match provider (build_request_payload config texts) with
    | .error e => .error e
    | .ok message_content => translate_from_content jsonLoads fencedSearch message_content texts

/-! ## A model of `json.loads` restricted to arrays of strings

`json` is standard-library code, not part of this repository; the pipeline
treats it as the abstract `jsonLoads` parameter.  The concrete parser below
is modelled from the JSON grammar that `json.loads` implements, restricted
to arrays of strings, and is used to witness that concrete substrings parse
to concrete arrays. -/

/-- JSON insignificant whitespace. -/
def jsonWsChar (c : Char) : Bool := c = ' ' || c = '\t' || c = '\n' || c = '\r'

/-- Hexadecimal digit value. -/
def hexVal (c : Char) : Option Nat :=
  if '0' ≤ c && c ≤ '9' then some (c.toNat - 48)
  else if 'a' ≤ c && c ≤ 'f' then some (c.toNat - 87)
  else if 'A' ≤ c && c ≤ 'F' then some (c.toNat - 55)
  else none

/-- Parse the body of a JSON string literal (after the opening quote),
returning the decoded string and the remaining input. -/
def parse_json_string_go : Nat → List Char → List Char → Option (String × List Char)
  | 0, _, _ => none
  | fuel + 1, cs, acc =>
    match cs with
    | [] => none
    | '"' :: rest => some (String.mk acc.reverse, rest)
    | '\\' :: [] => none
    | '\\' :: e :: rest =>
      match e with
      | '"' => parse_json_string_go fuel rest ('"' :: acc)
      | '\\' => parse_json_string_go fuel rest ('\\' :: acc)
      | '/' => parse_json_string_go fuel rest ('/' :: acc)
      | 'b' => parse_json_string_go fuel rest ('\x08' :: acc)
      | 'f' => parse_json_string_go fuel rest ('\x0c' :: acc)
      | 'n' => parse_json_string_go fuel rest ('\n' :: acc)
      | 'r' => parse_json_string_go fuel rest ('\r' :: acc)
      | 't' => parse_json_string_go fuel rest ('\t' :: acc)
      | 'u' =>
        match rest with
        | h1 :: h2 :: h3 :: h4 :: rest2 =>
          match hexVal h1, hexVal h2, hexVal h3, hexVal h4 with
          | some a, some b, some c, some d =>
            parse_json_string_go fuel rest2 (Char.ofNat (((a * 16 + b) * 16 + c) * 16 + d) :: acc)
          | _, _, _, _ => none
        | _ => none
      | _ => none
    | c :: rest => if c.toNat < 32 then none else parse_json_string_go fuel rest (c :: acc)

/-- Parse the comma-separated string elements of a JSON array (after the
opening bracket and at least one element is known to follow). -/
def parse_json_array_items : Nat → List Char → Option (List String)
  | 0, _ => none
  | fuel + 1, cs =>
    match cs.dropWhile jsonWsChar with
    | '"' :: rest =>
      match parse_json_string_go (rest.length + 1) rest [] with
      | some (s, rest2) =>
        match rest2.dropWhile jsonWsChar with
        | ',' :: rest3 => (parse_json_array_items fuel rest3).map (fun l => s :: l)
        | ']' :: rest3 => if rest3.dropWhile jsonWsChar = [] then some [s] else none
        | _ => none
      | none => none
    | _ => none

/-- `json.loads` on a document that must be an array of strings (modelled
from the spec's description of the provider contract; the whole input must
be consumed). -/
def parse_json_string_array (text : String) : Option (List String) :=
  let cs := text.data
  match cs.dropWhile jsonWsChar with
  | '[' :: rest =>
    match rest.dropWhile jsonWsChar with
    | ']' :: rest2 => if rest2.dropWhile jsonWsChar = [] then some [] else none
    | _ => parse_json_array_items (cs.length + 1) rest
  | _ => none

/-! ## Claim-side and amended merge-selection rules (for C3)

`claimed_*` is modelled from the claim's own words, not from the code; the
`amended_*` versions add the corrections that the counterexample forces
(an item that is blank after left-trimming is merged into its predecessor
before the listed signals are consulted; the terminal-punctuation signal
requires a non-empty previous item; a merge one side of which is blank
returns the other side unchanged). -/

/-- The claim's merge signal at the pair `(previous item, item)`: closing
punctuation start, or previous not ending in terminal punctuation, or
lowercase start. -/
def claimed_merge_signal (prev item : String) : Bool :=
  headIsClosing (pyLstrip item) || !endsWithTerminal prev || headIsLower (pyLstrip item)

/-- The claim's merge-point selection: left-to-right scan over adjacent
pairs, first pair where a signal fires, else the last two items. -/
def claimed_scan_index (items : List String) : Nat :=
  match (items.zip items.tail).findIdx? (fun pr => claimed_merge_signal pr.1 pr.2) with
  | some j => j
  | none => items.length - 2

/-- The claim's merge of two fragments: trim the adjoining whitespace and
join with a single space, unless the right fragment begins with closing
punctuation (then no space). -/
def claimed_concat (left right : String) : String :=
  let l := pyRstrip left
  let r := pyLstrip right
  if headIsClosing r then l ++ r else l ++ " " ++ r

/-- The claim's repeated-merge procedure (same loop shape as the code). -/
def claimed_merge_go : Nat → List String → Nat → List String
  | 0, items, _ => items
  | fuel + 1, items, expected =>
    if expected < items.length ∧ 1 < items.length then
      claimed_merge_go fuel (merge_at items (claimed_scan_index items) claimed_concat) expected
    else items

/-- The merge procedure exactly as the claim describes it. -/
def claimed_merge_extra_items (items : List String) (expected : Nat) : List String :=
  claimed_merge_go items.length items expected

/-- Amended merge signal: as claimed, plus the blank-item rule and the
non-empty requirement on the previous item. -/
def amended_merge_signal (prev item : String) : Bool :=
  let segment := pyLstrip item
  segment.data.isEmpty || headIsClosing segment ||
    (!prev.data.isEmpty && !endsWithTerminal prev) || headIsLower segment

/-- Amended merge-point selection: first adjacent pair where an amended
signal fires, else the last two items. -/
def amended_scan_index (items : List String) : Nat :=
  match (items.zip items.tail).findIdx? (fun pr => amended_merge_signal pr.1 pr.2) with
  | some j => j
  | none => items.length - 2

/-- Amended fragment merge: as claimed, except that when one side is blank
after trimming the other side is returned unchanged. -/
def amended_concat (left right : String) : String :=
  let l := pyRstrip left
  let r := pyLstrip right
  if l = "" then r
  else if r = "" then l
  else if headIsClosing r then l ++ r
  else l ++ " " ++ r

/-- The amended repeated-merge procedure. -/
def amended_merge_go : Nat → List String → Nat → List String
  | 0, items, _ => items
  | fuel + 1, items, expected =>
    if expected < items.length ∧ 1 < items.length then
      amended_merge_go fuel (merge_at items (amended_scan_index items) amended_concat) expected
    else items

/-- The merge procedure as the amended claim describes it. -/
def amended_merge_extra_items (items : List String) (expected : Nat) : List String :=
  amended_merge_go items.length items expected

/-! ## `document_handler.py`: element ids -/

/-- Decimal rendering of a natural number (the `{n}` of the id f-strings),
with fuel; fuel `n` is enough for any number of digits. -/
def decimal_go : Nat → Nat → List Char → List Char
  | 0, n, acc => Char.ofNat (48 + n % 10) :: acc
  | fuel + 1, n, acc =>
    if n < 10 then Char.ofNat (48 + n) :: acc
    else decimal_go fuel (n / 10) (Char.ofNat (48 + n % 10) :: acc)

/-- Decimal rendering of a natural number as a string. -/
def decimal (n : Nat) : String := String.mk (decimal_go n n [])

/-- Proof-side characterisation of the digit list of `n` (not used in any
executable position). -/
def digitsOf (n : Nat) : List Char :=
  if h : n < 10 then [Char.ofNat (48 + n)]
  else digitsOf (n / 10) ++ [Char.ofNat (48 + n % 10)]
termination_by n
decreasing_by exact Nat.div_lt_self (by omega) (by omega)

/-- `PowerPointHandler._paragraph_id`. -/
def ppt_paragraph_id (slide_index shape_index paragraph_index : Nat) : String :=
  "ppt_s" ++ decimal slide_index ++ "_sh" ++ decimal shape_index ++
    "_p" ++ decimal paragraph_index

/-- `PowerPointHandler._cell_id`. -/
def ppt_cell_id (slide_index shape_index row_index col_index : Nat) : String :=
  "ppt_s" ++ decimal slide_index ++ "_sh" ++ decimal shape_index ++
    "_c" ++ decimal row_index ++ "_" ++ decimal col_index

/-- `WordHandler._paragraph_id`. -/
def doc_paragraph_id (paragraph_index : Nat) : String :=
  "doc_p" ++ decimal paragraph_index

/-- `WordHandler._cell_id`. -/
def doc_cell_id (table_index row_index col_index : Nat) : String :=
  "doc_t" ++ decimal table_index ++ "_r" ++ decimal row_index ++ "_c" ++ decimal col_index

/-- `ExcelHandler._cell_id`. -/
def xls_cell_id (sheet_index row_index column_index : Nat) : String :=
  "xls_s" ++ decimal sheet_index ++ "_r" ++ decimal row_index ++ "_c" ++ decimal column_index

/-! Inverse parsers for the id strings, used to prove that ids from one
extraction are pairwise distinct. -/

/-- Consume a non-empty run of decimal digits, returning its value and the
rest of the input. -/
def parse_digits_go : List Char → Nat → Nat × List Char
  | [], acc => (acc, [])
  | c :: rest, acc =>
    if c.isDigit then parse_digits_go rest (acc * 10 + (c.toNat - 48)) else (acc, c :: rest)

/-- Parse a non-empty digit run at the head of the input. -/
def parse_digits : List Char → Option (Nat × List Char)
  | [] => none
  | c :: rest => if c.isDigit then some (parse_digits_go rest (c.toNat - 48)) else none

/-- Consume an expected literal character sequence. -/
def drop_lit : List Char → List Char → Option (List Char)
  | [], cs => some cs
  | _ :: _, [] => none
  | l :: lt, c :: ct => if c = l then drop_lit lt ct else none

/-- Structured form of a PowerPoint element id. -/
inductive PptKey where
  | par (slide shape paragraph : Nat)
  | cell (slide shape row col : Nat)
deriving DecidableEq

/-- Parse `ppt_s{s}_sh{sh}_p{p}` and `ppt_s{s}_sh{sh}_c{r}_{c}` ids. -/
def parse_ppt_id (id : String) : Option PptKey :=
  match drop_lit "ppt_s".data id.data with
  | none => none
  | some r1 =>
  match parse_digits r1 with
  | none => none
  | some (slide, r2) =>
  match drop_lit "_sh".data r2 with
  | none => none
  | some r3 =>
  match parse_digits r3 with
  | none => none
  | some (shape, r4) =>
  match r4 with
  | '_' :: 'p' :: r5 =>
    match parse_digits r5 with
    | some (paragraph, []) => some (PptKey.par slide shape paragraph)
    | _ => none
  | '_' :: 'c' :: r5 =>
    match parse_digits r5 with
    | some (row, '_' :: r6) =>
      match parse_digits r6 with
      | some (col, []) => some (PptKey.cell slide shape row col)
      | _ => none
    | _ => none
  | _ => none

/-- Structured form of a Word element id. -/
inductive WordKey where
  | par (paragraph : Nat)
  | cell (table row col : Nat)
deriving DecidableEq

/-- Parse `doc_p{i}` and `doc_t{t}_r{r}_c{c}` ids. -/
def parse_doc_id (id : String) : Option WordKey :=
  match drop_lit "doc_".data id.data with
  | none => none
  | some r1 =>
  match r1 with
  | 'p' :: r2 =>
    match parse_digits r2 with
    | some (paragraph, []) => some (WordKey.par paragraph)
    | _ => none
  | 't' :: r2 =>
    match parse_digits r2 with
    | some (table, r3) =>
      match drop_lit "_r".data r3 with
      | some r4 =>
        match parse_digits r4 with
        | some (row, r5) =>
          match drop_lit "_c".data r5 with
          | some r6 =>
            match parse_digits r6 with
            | some (col, []) => some (WordKey.cell table row col)
            | _ => none
          | none => none
        | none => none
      | none => none
    | none => none
  | _ => none

/-- Parse `xls_s{s}_r{r}_c{c}` ids. -/
def parse_xls_id (id : String) : Option (Nat × Nat × Nat) :=
  match drop_lit "xls_s".data id.data with
  | none => none
  | some r1 =>
  match parse_digits r1 with
  | none => none
  | some (sheet, r2) =>
  match drop_lit "_r".data r2 with
  | none => none
  | some r3 =>
  match parse_digits r3 with
  | none => none
  | some (row, r4) =>
  match drop_lit "_c".data r4 with
  | none => none
  | some r5 =>
  match parse_digits r5 with
  | some (col, []) => some (sheet, row, col)
  | _ => none

/-! ## `document_handler.py`: documents and the three adapters

The documents themselves are values of the external libraries
(`python-pptx`, `python-docx`, `openpyxl`); they are modelled as the
tree-shaped data the handlers traverse, with only the attributes the
handlers read or write. -/

/-- `TextElement` from `document_handler.py`. -/
structure TextElement where
  element_id : String
  text : String
deriving DecidableEq

/-- `enumerate`-style map starting at index `k`. -/
def idxMap (f : Nat → α → β) : Nat → List α → List β
  | _, [] => []
  | i, x :: xs => f i x :: idxMap f (i + 1) xs

/-- `enumerate`-style loop that appends the element produced for each index,
skipping indices that produce nothing. -/
def idxFilterMap (f : Nat → α → Option β) : Nat → List α → List β
  | _, [] => []
  | i, x :: xs =>
    match f i x with
    | some b => b :: idxFilterMap f (i + 1) xs
    | none => idxFilterMap f (i + 1) xs

/-- The shared per-location step of every `extract_text`: strip the raw
text and emit an element only when the result is non-empty. -/
def strippedElement (element_id : String) (raw : String) : Option TextElement :=
  let text := pyStrip raw
  if text = "" then none else some ⟨element_id, text⟩

/-- `"".join`-style concatenation with a separator. -/
def joinWith (sep : String) : List String → String
  | [] => ""
  | [x] => x
  | x :: xs => x ++ sep ++ joinWith sep xs

/-- `pptx` paragraph alignment values (only `LEFT` is written). -/
inductive PPAlignment where
  | left
  | center
  | right
  | justify
deriving DecidableEq

/-- A `pptx` run: text plus the font attributes the handler writes. -/
structure PptRun where
  text : String
  fontName : Option String
  fontSizePt : Option Nat
deriving DecidableEq

/-- A `pptx` paragraph. -/
structure PptParagraph where
  runs : List PptRun
  alignment : Option PPAlignment
  lineSpacing : Option Nat
deriving DecidableEq

/-- `pptx` `_Paragraph.text`: the concatenated run texts. -/
def PptParagraph.text (p : PptParagraph) : String := joinWith "" (p.runs.map PptRun.text)

/-- A `pptx` table cell (its text frame's paragraphs). -/
structure PptCell where
  paragraphs : List PptParagraph
deriving DecidableEq

/-- `pptx` `_Cell.text`: paragraph texts joined by newlines. -/
def PptCell.text (c : PptCell) : String :=
  joinWith "\n" (c.paragraphs.map PptParagraph.text)

/-- A `pptx` shape: `has_text_frame` and `has_table` guard the two optional
components the handler visits. -/
structure PptShape where
  textFrame : Option (List PptParagraph)
  table : Option (List (List PptCell))
deriving DecidableEq

/-- A `pptx` slide. -/
structure PptSlide where
  shapes : List PptShape
deriving DecidableEq

/-- A `pptx` presentation. -/
structure PptPresentation where
  slides : List PptSlide
deriving DecidableEq

/-- `PowerPointHandler._extract_from_shape`. -/
def ppt_extract_from_shape (slide_index shape_index : Nat) (shape : PptShape) :
    List TextElement :=
  (match shape.textFrame with
   | some paragraphs =>
     idxFilterMap (fun paragraph_index paragraph =>
       strippedElement (ppt_paragraph_id slide_index shape_index paragraph_index)
         paragraph.text) 0 paragraphs
   | none => []) ++
  (match shape.table with
   | some rows =>
     (idxMap (fun row_index row =>
        idxFilterMap (fun col_index cell =>
          strippedElement (ppt_cell_id slide_index shape_index row_index col_index)
            cell.text) 0 row) 0 rows).flatten
   | none => [])

/-- `PowerPointHandler.extract_text`. -/
def ppt_extract_text (p : PptPresentation) : List TextElement :=
  (idxMap (fun slide_index slide =>
     (idxMap (fun shape_index shape =>
        ppt_extract_from_shape slide_index shape_index shape) 0 slide.shapes).flatten)
    0 p.slides).flatten

/-- `PowerPointHandler._replace_ppt_paragraph` followed by
`_apply_body_text_format`: one fresh run with the body font, left alignment
and single line spacing. -/
def replace_ppt_paragraph (new_text : String) : PptParagraph :=
  { runs := [{ text := new_text, fontName := some "Arial", fontSizePt := some 24 }]
    alignment := some PPAlignment.left
    lineSpacing := some 1 }

/-- `PowerPointHandler._replace_ppt_cell`: clear the text frame down to one
paragraph and rebuild it like a replaced paragraph. -/
def replace_ppt_cell (new_text : String) : PptCell :=
  { paragraphs := [replace_ppt_paragraph new_text] }

/-- `PowerPointHandler._apply_to_shape`; `translations` is the dict,
modelled by its `get` method. -/
def ppt_apply_to_shape (slide_index shape_index : Nat) (shape : PptShape)
    (translations : String → Option String) : PptShape :=
  { textFrame := shape.textFrame.map (fun paragraphs =>
      idxMap (fun paragraph_index paragraph =>
        match translations (ppt_paragraph_id slide_index shape_index paragraph_index) with
        | some t => replace_ppt_paragraph t
        | none => paragraph) 0 paragraphs)
    table := shape.table.map (fun rows =>
      idxMap (fun row_index row =>
        idxMap (fun col_index cell =>
          match translations (ppt_cell_id slide_index shape_index row_index col_index) with
          | some t => replace_ppt_cell t
          | none => cell) 0 row) 0 rows) }

/-- `PowerPointHandler.apply_translations` (the document transformation;
saving to disk is outside the model). -/
def ppt_apply_translations (p : PptPresentation)
    (translations : String → Option String) : PptPresentation :=
  { slides := idxMap (fun slide_index slide =>
      { shapes := idxMap (fun shape_index shape =>
          ppt_apply_to_shape slide_index shape_index shape translations) 0 slide.shapes })
      0 p.slides }

/-- A `docx` run. -/
structure DocxRun where
  text : String
  fontName : Option String
  fontSize : Option Nat
deriving DecidableEq

/-- A `docx` paragraph with its style's font attributes. -/
structure DocxParagraph where
  runs : List DocxRun
  styleFontName : Option String
  styleFontSize : Option Nat
deriving DecidableEq

/-- `docx` `Paragraph.text`. -/
def DocxParagraph.text (p : DocxParagraph) : String := joinWith "" (p.runs.map DocxRun.text)

/-- A `docx` table cell. -/
structure DocxCell where
  paragraphs : List DocxParagraph
deriving DecidableEq

/-- `docx` `_Cell.text`: paragraph texts joined by newlines. -/
def DocxCell.text (c : DocxCell) : String :=
  joinWith "\n" (c.paragraphs.map DocxParagraph.text)

/-- A `docx` table. -/
structure DocxTable where
  rows : List (List DocxCell)
deriving DecidableEq

/-- A `docx` document: top-level paragraphs and tables (the two collections
the handler iterates). -/
structure DocxDocument where
  paragraphs : List DocxParagraph
  tables : List DocxTable
deriving DecidableEq

/-- `WordHandler.extract_text`. -/
def word_extract_text (document : DocxDocument) : List TextElement :=
  idxFilterMap (fun paragraph_index paragraph =>
    strippedElement (doc_paragraph_id paragraph_index) paragraph.text) 0 document.paragraphs ++
  (idxMap (fun table_index table =>
     (idxMap (fun row_index row =>
        idxFilterMap (fun col_index cell =>
          strippedElement (doc_cell_id table_index row_index col_index) cell.text) 0 row)
       0 table.rows).flatten) 0 document.tables).flatten

/-- `_get_run_font_attributes`: the first run carrying a font name or size. -/
def get_run_font_attributes (runs : List DocxRun) : Option String × Option Nat :=
  match runs with
  | [] => (none, none)
  | run :: rest =>
    if run.fontName.isSome || run.fontSize.isSome then (run.fontName, run.fontSize)
    else get_run_font_attributes rest

/-- `WordHandler._replace_paragraph`: remove the runs, add one run with the
new text, restoring the original (or requested) font. -/
def replace_paragraph (paragraph : DocxParagraph) (new_text : String)
    (font_name : Option String) : DocxParagraph :=
  let pair := get_run_font_attributes paragraph.runs
  let original_name := pair.1
  let original_size := pair.2
  let original_size := if original_size.isNone then paragraph.styleFontSize else original_size
  let original_name := if original_name.isNone then paragraph.styleFontName else original_name
  { paragraph with
      runs := [{ text := new_text
               , fontName := if font_name.isSome then font_name else original_name
               , fontSize := original_size }] }

/-- The paragraph scan inside `WordHandler._replace_cell` collecting the
first available font name and size. -/
def scan_cell_fonts : List DocxParagraph → Option String → Option Nat →
    Option String × Option Nat
  | [], oname, osize => (oname, osize)
  | p :: rest, oname, osize =>
    let pair := get_run_font_attributes p.runs
    let oname2 := if oname.isNone && pair.1.isSome then pair.1 else oname
    let osize2 := if osize.isNone && pair.2.isSome then pair.2 else osize
    if oname2.isSome && osize2.isSome then (oname2, osize2)
    else scan_cell_fonts rest oname2 osize2

/-- `WordHandler._replace_cell`: collapse the cell to a single paragraph
holding one run with the new text and the recovered font. -/
def replace_cell (cell : DocxCell) (new_text : String) (font_name : Option String) : DocxCell :=
  let pair := scan_cell_fonts cell.paragraphs none none
  let original_name := pair.1
  let original_size := pair.2
  let style :=
    match cell.paragraphs with
    | p :: _ => (p.styleFontName, p.styleFontSize)
    | [] => (none, none)
  let original_size := if original_size.isNone then style.2 else original_size
  let original_name := if original_name.isNone then style.1 else original_name
  let base : DocxParagraph :=
    match cell.paragraphs with
    | p :: _ => { p with runs := [] }
    | [] => { runs := [], styleFontName := none, styleFontSize := none }
  { paragraphs := [{ base with
      runs := [{ text := new_text
               , fontName := if font_name.isSome then font_name else original_name
               , fontSize := original_size }] }] }

/-- `WordHandler.apply_translations` (document transformation only). -/
def word_apply_translations (document : DocxDocument)
    (translations : String → Option String) (font_name : Option String) : DocxDocument :=
  { paragraphs := idxMap (fun paragraph_index paragraph =>
      match translations (doc_paragraph_id paragraph_index) with
      | some t => replace_paragraph paragraph t font_name
      | none => paragraph) 0 document.paragraphs
    tables := idxMap (fun table_index table =>
      { rows := idxMap (fun row_index row =>
          idxMap (fun col_index cell =>
            match translations (doc_cell_id table_index row_index col_index) with
            | some t => replace_cell cell t font_name
            | none => cell) 0 row) 0 table.rows }) 0 document.tables }

/-- A cell value as `openpyxl` presents it: `isinstance(value, str)` is true
exactly for the `str` constructor (`formula` stands for a formula object in
the non-`data_only` view; with `data_only=True` a formula cell surfaces as
its cached value or `empty`). -/
inductive XlsValue where
  | str (s : String)
  | num (n : Int)
  | bool (b : Bool)
  | formula (f : String)
  | empty
deriving DecidableEq

/-- An `openpyxl` cell with its worksheet coordinates (1-based in
`openpyxl`; arbitrary `Nat` here) and the font attribute the handler may
rewrite. -/
structure XlsCell where
  row : Nat
  col : Nat
  value : XlsValue
  fontName : Option String
deriving DecidableEq

/-- A worksheet: its cells in `iter_rows()` order. -/
structure XlsSheet where
  cells : List XlsCell
deriving DecidableEq

/-- A workbook. -/
structure XlsWorkbook where
  sheets : List XlsSheet
deriving DecidableEq

/-- The per-sheet body of `ExcelHandler.extract_text`: only string-valued
cells, stripped, non-empty. -/
def xls_extract_sheet (sheet_index : Nat) (sheet : XlsSheet) : List TextElement :=
  sheet.cells.filterMap (fun cell =>
    match cell.value with
    | XlsValue.str s => strippedElement (xls_cell_id sheet_index cell.row cell.col) s
    | _ => none)

/-- `ExcelHandler.extract_text`. -/
def xls_extract_text (workbook : XlsWorkbook) : List TextElement :=
  (idxMap xls_extract_sheet 0 workbook.sheets).flatten

/-- `ExcelHandler.apply_translations` (document transformation only):
rewrite the value (and optionally the font) of exactly the cells whose id is
mapped. -/
def xls_apply_translations (workbook : XlsWorkbook)
    (translations : String → Option String) (font_name : Option String) : XlsWorkbook :=
  { sheets := idxMap (fun sheet_index sheet =>
      { cells := sheet.cells.map (fun cell =>
          match translations (xls_cell_id sheet_index cell.row cell.col) with
          | some t =>
            { cell with
                value := XlsValue.str t
                fontName :=
                  match font_name with
                  | some f => if f = "" then cell.fontName else some f
                  | none => cell.fontName }
          | none => cell) }) 0 workbook.sheets }

/-- The per-call invariant `openpyxl` guarantees for `iter_rows`: within one
worksheet every cell occupies a distinct grid coordinate. -/
def xls_coords_ok (workbook : XlsWorkbook) : Prop :=
  ∀ sheet ∈ workbook.sheets,
    sheet.cells.Pairwise (fun c c2 => ¬ (c.row = c2.row ∧ c.col = c2.col))

/-- Position-indexed accessors used to state the frame property. -/
def ppt_get_paragraph (p : PptPresentation) (s sh i : Nat) : Option PptParagraph :=
  (p.slides[s]?).bind fun slide =>
    (slide.shapes[sh]?).bind fun shape =>
      shape.textFrame.bind fun paragraphs => paragraphs[i]?

def ppt_get_cell (p : PptPresentation) (s sh r c : Nat) : Option PptCell :=
  (p.slides[s]?).bind fun slide =>
    (slide.shapes[sh]?).bind fun shape =>
      shape.table.bind fun rows =>
        (rows[r]?).bind fun row => row[c]?

def word_get_paragraph (d : DocxDocument) (i : Nat) : Option DocxParagraph :=
  d.paragraphs[i]?

def word_get_cell (d : DocxDocument) (t r c : Nat) : Option DocxCell :=
  (d.tables[t]?).bind fun table =>
    (table.rows[r]?).bind fun row => row[c]?

def xls_get_cell (w : XlsWorkbook) (s i : Nat) : Option XlsCell :=
  (w.sheets[s]?).bind fun sheet => sheet.cells[i]?

/-! Small concrete documents used to instantiate the document theorems. -/

/-- A one-slide presentation whose single shape carries a one-paragraph text
frame and a one-cell table. -/
def samplePpt : PptPresentation :=
  { slides := [{ shapes := [{
      textFrame := some [{ runs := [{ text := " Title ", fontName := none, fontSizePt := none }]
                         , alignment := none, lineSpacing := none }]
      table := some [[{ paragraphs := [{ runs := [{ text := "Cell", fontName := none
                                                  , fontSizePt := none }]
                                       , alignment := none, lineSpacing := none }] }]] }] }] }

/-- A document with one paragraph and a one-cell table. -/
def sampleDocx : DocxDocument :=
  { paragraphs := [{ runs := [{ text := "Body", fontName := none, fontSize := none }]
                   , styleFontName := none, styleFontSize := none }]
    tables := [{ rows := [[{ paragraphs := [{ runs := [{ text := "T", fontName := none
                                                       , fontSize := none }]
                                            , styleFontName := none
                                            , styleFontSize := none }] }]] }] }

/-- A workbook with one sheet holding one string cell and one numeric cell. -/
def sampleXls : XlsWorkbook :=
  { sheets := [{ cells := [ { row := 1, col := 1, value := XlsValue.str " hi ", fontName := none }
                          , { row := 1, col := 2, value := XlsValue.num 7, fontName := none } ] }] }

/-! ## Supporting lemmas for the translator theorems -/

theorem pad_missing_items_go_eq :
    ∀ (fuel : Nat) (originals padded : List String) (idx : Nat),
      originals.length - idx ≤ fuel →
      pad_missing_items_go fuel padded originals idx = padded ++ originals.drop idx := by
  intro fuel
  induction fuel with
  | zero =>
    intro originals padded idx h
    have hle : originals.length ≤ idx := by omega
    simp [pad_missing_items_go, Nat.not_lt_of_le hle, List.drop_eq_nil_of_le hle]
  | succ n ih =>
    intro originals padded idx h
    by_cases hlt : idx < originals.length
    · have step := ih originals (padded ++ [originals.get ⟨idx, hlt⟩]) (idx + 1) (by omega)
      simp only [pad_missing_items_go, dif_pos hlt, step]
      rw [List.append_assoc]
      congr 1
      rw [List.drop_eq_getElem_cons hlt]
      rfl
    · have hle : originals.length ≤ idx := by omega
      simp [pad_missing_items_go, hlt, List.drop_eq_nil_of_le hle]

theorem pad_missing_items_eq (items originals : List String) :
    pad_missing_items items originals = items ++ originals.drop items.length :=
  pad_missing_items_go_eq originals.length originals items items.length (by omega)

/-! ## Claim theorems: translator -/

/-- C10: for the empty input sequence, `translate_texts` returns the empty
list immediately — for every configuration (so regardless of whether an API
key is set) and every provider (so no request is built and the provider is
never contacted), and no error is raised. -/
theorem translate_texts_empty_input (config : TranslationConfig)
    (provider : RequestPayload → Except TranslationError String)
    (jsonLoads : String → Option PyValue)
    (fencedSearch : String → Option String) :
    translate_texts config provider jsonLoads fencedSearch [] = .ok [] := rfl

/-- C2: when the parsed count differs from the expected count by more than
`max(3, expected // 5 + 1)`, `_reconcile_translation_count` returns the
parsed list unchanged, and the caller-level length check (lines 71-76 of
`translate_texts`) then fails with the count-mismatch translation error. -/
theorem reconcile_gives_up_beyond_tolerance
    (parsed texts : List String)
    (h1 : 1 ≤ texts.length)
    (h2 : reconcile_tolerance texts.length <
      ((parsed.length : Int) - (texts.length : Int)).natAbs) :
    reconcile_translation_count parsed texts = parsed ∧
    checked_reconcile parsed texts = .error .countMismatch := by
  have hne : parsed.length ≠ texts.length := by
    intro h
    rw [h] at h2
    simp [reconcile_tolerance] at h2
  have hfirst : ¬ (texts.length = 0 ∨ parsed.length = texts.length) := by
    push_neg
    exact ⟨by omega, hne⟩
  have hrec : reconcile_translation_count parsed texts = parsed := by
    simp only [reconcile_translation_count]
    rw [if_neg hfirst, if_pos h2]
  refine ⟨hrec, ?_⟩
  simp only [checked_reconcile]
  rw [if_pos hne, hrec, if_pos hne]

theorem reconcile_gives_up_beyond_tolerance_witness :
    reconcile_translation_count ["a", "b"]
        ["t1", "t2", "t3", "t4", "t5", "t6", "t7", "t8", "t9", "t10"] = ["a", "b"] ∧
    checked_reconcile ["a", "b"]
        ["t1", "t2", "t3", "t4", "t5", "t6", "t7", "t8", "t9", "t10"] = .error .countMismatch :=
  reconcile_gives_up_beyond_tolerance _ _ (by decide) (by decide)

/-- C4: when the parsed count is below the expected count and within the
tolerance, `_reconcile_translation_count` keeps the parsed items in their
positions and appends the original source strings at the missing tail
positions, so the result has exactly the expected length. -/
theorem reconcile_pads_missing_tail
    (translations texts : List String)
    (h1 : translations.length < texts.length)
    (h2 : ((translations.length : Int) - (texts.length : Int)).natAbs ≤
      reconcile_tolerance texts.length) :
    reconcile_translation_count translations texts =
      translations ++ texts.drop translations.length ∧
    (reconcile_translation_count translations texts).length = texts.length := by
  have hfirst : ¬ (texts.length = 0 ∨ translations.length = texts.length) := by
    push_neg
    exact ⟨by omega, by omega⟩
  have hrec : reconcile_translation_count translations texts =
      translations ++ texts.drop translations.length := by
    simp only [reconcile_translation_count]
    rw [if_neg hfirst, if_neg (by omega), if_neg (by omega : ¬ texts.length < translations.length),
      if_pos h1, pad_missing_items_eq]
  refine ⟨hrec, ?_⟩
  rw [hrec]
  simp only [List.length_append, List.length_drop]
  omega

theorem reconcile_pads_missing_tail_witness :
    reconcile_translation_count ["Uno", "Dos"] ["one", "two", "three"] =
      ["Uno", "Dos"] ++ ["one", "two", "three"].drop 2 ∧
    (reconcile_translation_count ["Uno", "Dos"] ["one", "two", "three"]).length = 3 :=
  reconcile_pads_missing_tail ["Uno", "Dos"] ["one", "two", "three"] (by decide) (by decide)

/-- C5: if the provider's (stripped) response content parses — already at
step one of the cascade — to a JSON array of exactly the `texts.length`
requested strings, `translate_texts` returns those strings unchanged and in
order. -/
theorem translate_texts_exact_roundtrip
    (config : TranslationConfig)
    (provider : RequestPayload → Except TranslationError String)
    (jsonLoads : String → Option PyValue)
    (fencedSearch : String → Option String)
    (texts ts : List String) (content : String)
    (hne : texts ≠ [])
    (hkey : config.api_key ≠ "")
    (hprov : provider (build_request_payload config texts) = .ok content)
    (hparse : jsonLoads content = some (PyValue.list (ts.map PyValue.str)))
    (hlen : ts.length = texts.length) :
    translate_texts config provider jsonLoads fencedSearch texts = .ok ts := by
  simp only [translate_texts]
  rw [if_neg hne, if_neg hkey, hprov]
  have hextract : extract_translations jsonLoads fencedSearch content texts.length =
      .ok (ts.map PyValue.str) := by
    simp only [extract_translations, hparse, acceptParsed]
    rw [if_pos]
    left
    simp [hlen]
  simp only [translate_from_content, hextract]
  rw [if_pos (by simp [hlen])]
  have : ∀ l : List String, (l.map PyValue.str).map pyStr = l := by
    intro l
    rw [List.map_map]
    have hps : (pyStr ∘ PyValue.str) = id := funext fun s => rfl
    rw [hps, List.map_id]
  rw [this]

theorem translate_texts_exact_roundtrip_witness :
    translate_texts
      ⟨"key", "", Option.none, "fr", 0⟩
      (fun _ => .ok "[\"x\"]")
      (fun _ => some (PyValue.list [PyValue.str "x"]))
      (fun _ => Option.none)
      ["hello"] = .ok ["x"] :=
  translate_texts_exact_roundtrip _ _ _ _ ["hello"] ["x"] "[\"x\"]"
    (by decide) (by decide) rfl rfl rfl

/-- C1 (divergence witness): a provider response that parses to a JSON array
whose length differs from the request count by no more than the tolerance is
*rejected* by `_extract_translations` (every step of the cascade demands
`expected_count == len(parsed)`), so `translate_texts` raises the parse
error instead of reconciling — even though `checked_reconcile` (lines 71-76
plus `_reconcile_translation_count`) would have repaired exactly this
input, as the second conjunct shows.  Consequently the reconciliation code
is unreachable for non-empty requests. -/
theorem translate_rejects_reconcilable_mismatch
    (jsonLoads : String → Option PyValue)
    (fencedSearch : String → Option String)
    (h1 : jsonLoads "[\"x\", \"y\", \"z\"]" =
      some (PyValue.list [PyValue.str "x", PyValue.str "y", PyValue.str "z"]))
    (h2 : fencedSearch "[\"x\", \"y\", \"z\"]" = Option.none) :
    translate_from_content jsonLoads fencedSearch "[\"x\", \"y\", \"z\"]" ["a", "b"] =
      .error .parse ∧
    checked_reconcile ["x", "y", "z"] ["a", "b"] = .ok ["x y", "z"] := by
  constructor
  · have hfind : find_json_array "[\"x\", \"y\", \"z\"]" = some "[\"x\", \"y\", \"z\"]" := by
      decide
    have hacc : acceptParsed (List.length ["a", "b"]) (jsonLoads "[\"x\", \"y\", \"z\"]") =
        Option.none := by
      rw [h1]
      rfl
    simp only [translate_from_content, extract_translations, hacc, h2, hfind,
      Option.none_bind, Option.some_bind]
  · rfl

theorem translate_rejects_reconcilable_mismatch_witness :
    translate_from_content
      (fun _ => some (PyValue.list [PyValue.str "x", PyValue.str "y", PyValue.str "z"]))
      (fun _ => Option.none)
      "[\"x\", \"y\", \"z\"]" ["a", "b"] = .error .parse ∧
    checked_reconcile ["x", "y", "z"] ["a", "b"] = .ok ["x y", "z"] :=
  translate_rejects_reconcilable_mismatch _ _ rfl rfl

/-! ## C3: the merge-selection rule -/

theorem find_merge_index_go_cons (prev item : String) (rest : List String) (idx fb : Nat) :
    find_merge_index_go prev (item :: rest) idx fb =
      if amended_merge_signal prev item then idx - 1
      else find_merge_index_go item rest (idx + 1) fb := by
  rcases hd : (pyLstrip item).data with _ | ⟨c, t⟩
  · simp [find_merge_index_go, amended_merge_signal, hd]
  · cases hc : closingChars.contains c <;>
      cases h2 : !prev.data.isEmpty && !endsWithTerminal prev <;>
      cases h3 : isLowerAscii c <;>
      simp [find_merge_index_go, amended_merge_signal, headIsClosing, headIsLower, hd, hc, h2, h3]

theorem find_merge_index_go_eq_findIdx :
    ∀ (xs : List String) (prev : String) (idx fb : Nat), 1 ≤ idx →
      find_merge_index_go prev xs idx fb =
        match ((prev :: xs).zip xs).findIdx? (fun pr => amended_merge_signal pr.1 pr.2) with
        | some j => idx - 1 + j
        | none => fb := by
  intro xs
  induction xs with
  | nil => intro prev idx fb _; rfl
  | cons x xs ih =>
    intro prev idx fb hidx
    rw [find_merge_index_go_cons]
    have hzip : (prev :: x :: xs).zip (x :: xs) = (prev, x) :: (x :: xs).zip xs := rfl
    rw [hzip, List.findIdx?_cons]
    by_cases hs : amended_merge_signal prev x
    · simp [hs]
    · simp only [hs, if_neg, Bool.false_eq_true, if_false]
      rw [ih x (idx + 1) fb (by omega), List.findIdx?_succ]
      rcases hfound : ((x :: xs).zip xs).findIdx? (fun pr => amended_merge_signal pr.1 pr.2) with
        _ | j
      · simp [hfound]
      · rw [hfound, Option.map_some']
        show idx + 1 - 1 + j = idx - 1 + (j + 1)
        omega

theorem find_merge_index_eq_amended_scan (items : List String) :
    find_merge_index items = amended_scan_index items := by
  rcases items with _ | ⟨x, xs⟩
  · rfl
  · rw [show find_merge_index (x :: xs) = find_merge_index_go x xs 1 ((x :: xs).length - 2)
        from rfl,
      find_merge_index_go_eq_findIdx xs x 1 ((x :: xs).length - 2) (by omega)]
    simp only [amended_scan_index, List.tail_cons]
    rcases hfound : ((x :: xs).zip xs).findIdx? (fun pr => amended_merge_signal pr.1 pr.2) with
      _ | j
    · simp [hfound]
    · simp [hfound]

theorem concat_segments_eq_amended (left right : String) :
    concat_segments left right = amended_concat left right := rfl

theorem merge_extra_items_go_eq_amended :
    ∀ (fuel : Nat) (items : List String) (expected : Nat),
      merge_extra_items_go fuel items expected = amended_merge_go fuel items expected := by
  intro fuel
  induction fuel with
  | zero => intro items expected; rfl
  | succ n ih =>
    intro items expected
    simp only [merge_extra_items_go, amended_merge_go]
    split
    · rw [find_merge_index_eq_amended_scan,
        show concat_segments = amended_concat from funext fun l => funext fun r => rfl]
      exact ih _ _
    · rfl

theorem merge_extra_items_eq_amended (items : List String) (expected : Nat) :
    merge_extra_items items expected = amended_merge_extra_items items expected :=
  merge_extra_items_go_eq_amended items.length items expected

theorem amended_scan_index_le (items : List String) (h : 2 ≤ items.length) :
    amended_scan_index items + 2 ≤ items.length := by
  simp only [amended_scan_index]
  rcases hfound : (items.zip items.tail).findIdx? (fun pr => amended_merge_signal pr.1 pr.2) with
    _ | j
  · simp [hfound]
    omega
  · have hlt := (List.findIdx?_eq_some_iff_findIdx_eq.mp hfound).1
    rw [List.length_zip, List.length_tail] at hlt
    simp [hfound]
    omega

theorem merge_at_length (items : List String) (idx : Nat) (join : String → String → String)
    (h : idx + 2 ≤ items.length) :
    (merge_at items idx join).length = items.length - 1 := by
  simp only [merge_at, List.length_append, List.length_take, List.length_drop,
    List.length_cons, List.length_nil]
  omega

theorem merge_extra_items_go_length :
    ∀ (fuel : Nat) (items : List String) (expected : Nat),
      1 ≤ expected → expected ≤ items.length → items.length ≤ expected + fuel →
      (merge_extra_items_go fuel items expected).length = expected := by
  intro fuel
  induction fuel with
  | zero =>
    intro items expected h1 h2 h3
    have hlen : items.length = expected := by omega
    simp [merge_extra_items_go, hlen]
  | succ n ih =>
    intro items expected h1 h2 h3
    simp only [merge_extra_items_go]
    split
    · next hguard =>
      have hb := amended_scan_index_le items (by omega)
      rw [← find_merge_index_eq_amended_scan] at hb
      have hlen := merge_at_length items (find_merge_index items) concat_segments (by omega)
      exact (by rw [ih _ _ h1 (by omega) (by omega)] :
        (merge_extra_items_go n (merge_at items (find_merge_index items) concat_segments)
          expected).length = expected)
    · next hguard => omega

/-- C3 counterexample: on `["", "Big", "Cat."]` the code's scan merges at
index 1 (the empty previous item disables the terminal-punctuation signal
and an empty fragment would short-circuit the scan), while the scan exactly
as the claim words it fires its terminal-punctuation signal at the first
pair (an empty string does not end in terminal punctuation) and merges at
index 0 — and the two procedures produce different output lists. -/
theorem claimed_merge_scan_counterexample :
    merge_extra_items ["", "Big", "Cat."] 2 = ["", "Big Cat."] ∧
    claimed_merge_extra_items ["", "Big", "Cat."] 2 = [" Big", "Cat."] ∧
    find_merge_index ["", "Big", "Cat."] = 1 ∧
    claimed_scan_index ["", "Big", "Cat."] = 0 := by decide

/-- C3 (amended): within the tolerance, with more parsed items than
expected, `_reconcile_translation_count` is exactly the repeated
adjacent-merge procedure whose merge point is the first adjacent pair at
which an amended signal fires (blank fragment, closing-punctuation start,
non-empty previous item without terminal punctuation, lowercase start; last
two items as fallback) and whose fragment merge trims adjoining whitespace
and joins with a single space unless the right fragment starts with closing
punctuation or either side is blank; in particular
`["Hello", "world.", "Goodbye"]` with expected count 2 merges to
`["Hello world.", "Goodbye"]`. -/
theorem merge_follows_amended_scan
    (translations texts : List String)
    (h0 : 1 ≤ texts.length)
    (h1 : texts.length < translations.length)
    (h2 : ((translations.length : Int) - (texts.length : Int)).natAbs ≤
      reconcile_tolerance texts.length) :
    reconcile_translation_count translations texts =
      amended_merge_extra_items translations texts.length ∧
    merge_extra_items ["Hello", "world.", "Goodbye"] 2 = ["Hello world.", "Goodbye"] := by
  constructor
  · have hfirst : ¬ (texts.length = 0 ∨ translations.length = texts.length) := by
      push_neg
      exact ⟨by omega, by omega⟩
    have hmlen : (merge_extra_items translations texts.length).length = texts.length :=
      merge_extra_items_go_length translations.length translations texts.length h0
        (by omega) (by omega)
    simp only [reconcile_translation_count]
    rw [if_neg hfirst, if_neg (by omega), if_pos h1, if_neg (by omega),
      merge_extra_items_eq_amended]
  · decide

theorem merge_follows_amended_scan_witness :
    reconcile_translation_count ["Hello", "world.", "Goodbye"] ["a", "b"] =
      amended_merge_extra_items ["Hello", "world.", "Goodbye"] 2 ∧
    merge_extra_items ["Hello", "world.", "Goodbye"] 2 = ["Hello world.", "Goodbye"] :=
  merge_follows_amended_scan ["Hello", "world.", "Goodbye"] ["a", "b"]
    (by decide) (by decide) (by decide)

/-- C6: the depth-tracked bracket scan does not terminate at a `]` inside a
quoted string literal: on `Note: see [ "a]b", "c" ] end` it returns the full
array substring, which parses to the two-element array `["a]b", "c"]`. -/
theorem find_json_array_quoted_bracket :
    find_json_array "Note: see [ \"a]b\", \"c\" ] end" = some "[ \"a]b\", \"c\" ]" ∧
    parse_json_string_array "[ \"a]b\", \"c\" ]" = some ["a]b", "c"] := by decide

/-! ## Decimal rendering and its inverse -/

theorem digit_char_spec (m : Nat) (h : m < 10) :
    (Char.ofNat (48 + m)).isDigit = true ∧ (Char.ofNat (48 + m)).toNat = 48 + m := by
  interval_cases m <;> exact ⟨by decide, by decide⟩

theorem decimal_go_eq (fuel : Nat) :
    ∀ (n : Nat) (acc : List Char), n ≤ fuel →
      decimal_go fuel n acc = digitsOf n ++ acc := by
  induction fuel with
  | zero =>
    intro n acc h
    have hn : n = 0 := by omega
    subst hn
    rw [digitsOf.eq_def]
    simp [decimal_go]
  | succ m ih =>
    intro n acc h
    by_cases hlt : n < 10
    · rw [digitsOf.eq_def]
      simp [decimal_go, hlt]
    · have hdiv : n / 10 ≤ m := by
        have := Nat.div_lt_self (by omega : 0 < n) (by omega : 1 < 10)
        omega
      rw [digitsOf.eq_def]
      simp only [decimal_go, if_neg hlt, dif_neg hlt, ih (n / 10) _ hdiv, List.append_assoc,
        List.cons_append, List.nil_append]

theorem decimal_data (n : Nat) : (decimal n).data = digitsOf n := by
  show decimal_go n n [] = digitsOf n
  rw [decimal_go_eq n n [] (Nat.le_refl n), List.append_nil]

theorem digitsOf_all_digits : ∀ (n : Nat), ∀ c ∈ digitsOf n, c.isDigit = true := by
  intro n
  induction n using Nat.strong_induction_on with
  | _ n ih =>
    intro c hc
    rw [digitsOf.eq_def] at hc
    by_cases hlt : n < 10
    · rw [dif_pos hlt] at hc
      simp only [List.mem_singleton] at hc
      subst hc
      exact (digit_char_spec n hlt).1
    · rw [dif_neg hlt] at hc
      rcases List.mem_append.mp hc with h | h
      · exact ih (n / 10) (Nat.div_lt_self (by omega) (by omega)) c h
      · simp only [List.mem_singleton] at h
        subst h
        exact (digit_char_spec (n % 10) (Nat.mod_lt n (by omega))).1

theorem digitsOf_ne_nil (n : Nat) : digitsOf n ≠ [] := by
  rw [digitsOf.eq_def]
  by_cases hlt : n < 10
  · simp [hlt]
  · simp [hlt]

theorem parse_digits_go_stop (rest : List Char) (acc : Nat)
    (h : ∀ c, rest.head? = some c → c.isDigit = false) :
    parse_digits_go rest acc = (acc, rest) := by
  cases rest with
  | nil => rfl
  | cons c t =>
    have := h c rfl
    simp [parse_digits_go, this]

theorem parse_digits_go_append : ∀ (n : Nat), ∀ (acc : Nat) (rest : List Char),
    parse_digits_go (digitsOf n ++ rest) acc =
      parse_digits_go rest (acc * 10 ^ (digitsOf n).length + n) := by
  intro n
  induction n using Nat.strong_induction_on with
  | _ n ih =>
    intro acc rest
    by_cases hlt : n < 10
    · rw [digitsOf.eq_def, dif_pos hlt]
      obtain ⟨hdig, hval⟩ := digit_char_spec n hlt
      simp [parse_digits_go, hdig, hval]
    · rw [digitsOf.eq_def, dif_neg hlt]
      obtain ⟨hdig, hval⟩ := digit_char_spec (n % 10) (Nat.mod_lt n (by omega))
      rw [List.append_assoc, ih (n / 10) (Nat.div_lt_self (by omega) (by omega)),
        List.singleton_append]
      simp only [parse_digits_go, hdig, if_pos, hval]
      have harith : (acc * 10 ^ (digitsOf (n / 10)).length + n / 10) * 10 + (48 + n % 10 - 48) =
          acc * 10 ^ ((digitsOf (n / 10)).length + 1) + n := by
        have hmod := Nat.div_add_mod n 10
        rw [Nat.pow_succ]
        ring_nf
        omega
      rw [harith]
      congr 1
      simp [List.length_append]

theorem parse_digits_of_digits (n : Nat) (rest : List Char)
    (h : ∀ c, rest.head? = some c → c.isDigit = false) :
    parse_digits (digitsOf n ++ rest) = some (n, rest) := by
  obtain ⟨c0, t, hct⟩ := List.exists_cons_of_ne_nil (digitsOf_ne_nil n)
  have hc0 : c0.isDigit = true := digitsOf_all_digits n c0 (by rw [hct]; exact List.mem_cons_self _ _)
  have hgo : parse_digits_go (digitsOf n ++ rest) 0 = (n, rest) := by
    rw [parse_digits_go_append n 0 rest, Nat.zero_mul, Nat.zero_add,
      parse_digits_go_stop rest n h]
  rw [hct] at hgo ⊢
  simp only [List.cons_append, parse_digits, hc0, if_pos]
  simp only [List.cons_append, parse_digits_go, hc0, if_true, Nat.zero_mul, Nat.zero_add,
    reduceIte] at hgo
  exact congrArg some hgo

theorem drop_lit_append : ∀ (lit rest : List Char), drop_lit lit (lit ++ rest) = some rest := by
  intro lit
  induction lit with
  | nil => intro rest; rfl
  | cons c t ih => intro rest; simp [drop_lit, ih]

theorem head_not_digit_lit (c0 : Char) (h : c0.isDigit = false) (l : List Char) :
    ∀ c, ((c0 :: l).head?) = some c → c.isDigit = false := by
  intro c hc
  rw [List.head?_cons, Option.some.injEq] at hc
  subst hc
  exact h

theorem parse_digits_of_digits_nil (n : Nat) : parse_digits (digitsOf n) = some (n, []) := by
  have h := parse_digits_of_digits n [] (by intro c hc; simp at hc)
  rwa [List.append_nil] at h

/-! ## Id-string roundtrips -/

theorem parse_ppt_paragraph_id (s sh p : Nat) :
    parse_ppt_id (ppt_paragraph_id s sh p) = some (PptKey.par s sh p) := by
  have hdata : (ppt_paragraph_id s sh p).data =
      'p' :: 'p' :: 't' :: '_' :: 's' ::
        (digitsOf s ++ ('_' :: 's' :: 'h' :: (digitsOf sh ++ ('_' :: 'p' :: digitsOf p)))) := by
    simp only [ppt_paragraph_id, String.data_append, decimal_data, List.append_assoc]
    rfl
  have h1 : drop_lit "ppt_s".data
      ('p' :: 'p' :: 't' :: '_' :: 's' ::
        (digitsOf s ++ ('_' :: 's' :: 'h' :: (digitsOf sh ++ ('_' :: 'p' :: digitsOf p))))) =
      some (digitsOf s ++ ('_' :: 's' :: 'h' :: (digitsOf sh ++ ('_' :: 'p' :: digitsOf p)))) :=
    drop_lit_append "ppt_s".data _
  have h2 : parse_digits
      (digitsOf s ++ ('_' :: 's' :: 'h' :: (digitsOf sh ++ ('_' :: 'p' :: digitsOf p)))) =
      some (s, '_' :: 's' :: 'h' :: (digitsOf sh ++ ('_' :: 'p' :: digitsOf p))) :=
    parse_digits_of_digits s _ (head_not_digit_lit '_' (by decide) _)
  have h3 : drop_lit "_sh".data
      ('_' :: 's' :: 'h' :: (digitsOf sh ++ ('_' :: 'p' :: digitsOf p))) =
      some (digitsOf sh ++ ('_' :: 'p' :: digitsOf p)) :=
    drop_lit_append "_sh".data _
  have h4 : parse_digits (digitsOf sh ++ ('_' :: 'p' :: digitsOf p)) =
      some (sh, '_' :: 'p' :: digitsOf p) :=
    parse_digits_of_digits sh _ (head_not_digit_lit '_' (by decide) _)
  simp only [parse_ppt_id, hdata, h1, h2, h3, h4, parse_digits_of_digits_nil]

theorem parse_ppt_cell_id (s sh r c : Nat) :
    parse_ppt_id (ppt_cell_id s sh r c) = some (PptKey.cell s sh r c) := by
  have hdata : (ppt_cell_id s sh r c).data =
      'p' :: 'p' :: 't' :: '_' :: 's' ::
        (digitsOf s ++ ('_' :: 's' :: 'h' ::
          (digitsOf sh ++ ('_' :: 'c' :: (digitsOf r ++ ('_' :: digitsOf c)))))) := by
    simp only [ppt_cell_id, String.data_append, decimal_data, List.append_assoc]
    rfl
  have h1 : drop_lit "ppt_s".data
      ('p' :: 'p' :: 't' :: '_' :: 's' ::
        (digitsOf s ++ ('_' :: 's' :: 'h' ::
          (digitsOf sh ++ ('_' :: 'c' :: (digitsOf r ++ ('_' :: digitsOf c))))))) =
      some (digitsOf s ++ ('_' :: 's' :: 'h' ::
        (digitsOf sh ++ ('_' :: 'c' :: (digitsOf r ++ ('_' :: digitsOf c)))))) :=
    drop_lit_append "ppt_s".data _
  have h2 : parse_digits
      (digitsOf s ++ ('_' :: 's' :: 'h' ::
        (digitsOf sh ++ ('_' :: 'c' :: (digitsOf r ++ ('_' :: digitsOf c)))))) =
      some (s, '_' :: 's' :: 'h' ::
        (digitsOf sh ++ ('_' :: 'c' :: (digitsOf r ++ ('_' :: digitsOf c))))) :=
    parse_digits_of_digits s _ (head_not_digit_lit '_' (by decide) _)
  have h3 : drop_lit "_sh".data
      ('_' :: 's' :: 'h' :: (digitsOf sh ++ ('_' :: 'c' :: (digitsOf r ++ ('_' :: digitsOf c))))) =
      some (digitsOf sh ++ ('_' :: 'c' :: (digitsOf r ++ ('_' :: digitsOf c)))) :=
    drop_lit_append "_sh".data _
  have h4 : parse_digits (digitsOf sh ++ ('_' :: 'c' :: (digitsOf r ++ ('_' :: digitsOf c)))) =
      some (sh, '_' :: 'c' :: (digitsOf r ++ ('_' :: digitsOf c))) :=
    parse_digits_of_digits sh _ (head_not_digit_lit '_' (by decide) _)
  have h5 : parse_digits (digitsOf r ++ ('_' :: digitsOf c)) =
      some (r, '_' :: digitsOf c) :=
    parse_digits_of_digits r _ (head_not_digit_lit '_' (by decide) _)
  simp only [parse_ppt_id, hdata, h1, h2, h3, h4, h5, parse_digits_of_digits_nil]

theorem parse_doc_paragraph_id (p : Nat) :
    parse_doc_id (doc_paragraph_id p) = some (WordKey.par p) := by
  have hdata : (doc_paragraph_id p).data =
      'd' :: 'o' :: 'c' :: '_' :: 'p' :: digitsOf p := by
    simp only [doc_paragraph_id, String.data_append, decimal_data]
    rfl
  have h1 : drop_lit "doc_".data ('d' :: 'o' :: 'c' :: '_' :: 'p' :: digitsOf p) =
      some ('p' :: digitsOf p) :=
    drop_lit_append "doc_".data _
  simp only [parse_doc_id, hdata, h1, parse_digits_of_digits_nil]

theorem parse_doc_cell_id (t r c : Nat) :
    parse_doc_id (doc_cell_id t r c) = some (WordKey.cell t r c) := by
  have hdata : (doc_cell_id t r c).data =
      'd' :: 'o' :: 'c' :: '_' :: 't' ::
        (digitsOf t ++ ('_' :: 'r' :: (digitsOf r ++ ('_' :: 'c' :: digitsOf c)))) := by
    simp only [doc_cell_id, String.data_append, decimal_data, List.append_assoc]
    rfl
  have h1 : drop_lit "doc_".data
      ('d' :: 'o' :: 'c' :: '_' :: 't' ::
        (digitsOf t ++ ('_' :: 'r' :: (digitsOf r ++ ('_' :: 'c' :: digitsOf c))))) =
      some ('t' :: (digitsOf t ++ ('_' :: 'r' :: (digitsOf r ++ ('_' :: 'c' :: digitsOf c))))) :=
    drop_lit_append "doc_".data _
  have h2 : parse_digits (digitsOf t ++ ('_' :: 'r' :: (digitsOf r ++ ('_' :: 'c' :: digitsOf c)))) =
      some (t, '_' :: 'r' :: (digitsOf r ++ ('_' :: 'c' :: digitsOf c))) :=
    parse_digits_of_digits t _ (head_not_digit_lit '_' (by decide) _)
  have h3 : drop_lit "_r".data ('_' :: 'r' :: (digitsOf r ++ ('_' :: 'c' :: digitsOf c))) =
      some (digitsOf r ++ ('_' :: 'c' :: digitsOf c)) :=
    drop_lit_append "_r".data _
  have h4 : parse_digits (digitsOf r ++ ('_' :: 'c' :: digitsOf c)) =
      some (r, '_' :: 'c' :: digitsOf c) :=
    parse_digits_of_digits r _ (head_not_digit_lit '_' (by decide) _)
  have h5 : drop_lit "_c".data ('_' :: 'c' :: digitsOf c) = some (digitsOf c) :=
    drop_lit_append "_c".data _
  simp only [parse_doc_id, hdata, h1, h2, h3, h4, h5, parse_digits_of_digits_nil]

theorem parse_xls_cell_id (s r c : Nat) :
    parse_xls_id (xls_cell_id s r c) = some (s, r, c) := by
  have hdata : (xls_cell_id s r c).data =
      'x' :: 'l' :: 's' :: '_' :: 's' ::
        (digitsOf s ++ ('_' :: 'r' :: (digitsOf r ++ ('_' :: 'c' :: digitsOf c)))) := by
    simp only [xls_cell_id, String.data_append, decimal_data, List.append_assoc]
    rfl
  have h1 : drop_lit "xls_s".data
      ('x' :: 'l' :: 's' :: '_' :: 's' ::
        (digitsOf s ++ ('_' :: 'r' :: (digitsOf r ++ ('_' :: 'c' :: digitsOf c))))) =
      some (digitsOf s ++ ('_' :: 'r' :: (digitsOf r ++ ('_' :: 'c' :: digitsOf c)))) :=
    drop_lit_append "xls_s".data _
  have h2 : parse_digits (digitsOf s ++ ('_' :: 'r' :: (digitsOf r ++ ('_' :: 'c' :: digitsOf c)))) =
      some (s, '_' :: 'r' :: (digitsOf r ++ ('_' :: 'c' :: digitsOf c))) :=
    parse_digits_of_digits s _ (head_not_digit_lit '_' (by decide) _)
  have h3 : drop_lit "_r".data ('_' :: 'r' :: (digitsOf r ++ ('_' :: 'c' :: digitsOf c))) =
      some (digitsOf r ++ ('_' :: 'c' :: digitsOf c)) :=
    drop_lit_append "_r".data _
  have h4 : parse_digits (digitsOf r ++ ('_' :: 'c' :: digitsOf c)) =
      some (r, '_' :: 'c' :: digitsOf c) :=
    parse_digits_of_digits r _ (head_not_digit_lit '_' (by decide) _)
  have h5 : drop_lit "_c".data ('_' :: 'c' :: digitsOf c) = some (digitsOf c) :=
    drop_lit_append "_c".data _
  simp only [parse_xls_id, hdata, h1, h2, h3, h4, h5, parse_digits_of_digits_nil]

/-! ## `pyStrip` is idempotent -/

theorem head?_dropWhile_eq_some {p : α → Bool} {l : List α} {c : α}
    (h : (l.dropWhile p).head? = some c) : p c = false := by
  have := List.head?_dropWhile_not p l
  rw [h] at this
  exact this

theorem dropWhile_of_head_neg {p : α → Bool} {l : List α} {c : α}
    (hh : l.head? = some c) (hc : p c = false) : l.dropWhile p = l := by
  cases l with
  | nil => rfl
  | cons x xs =>
    rw [List.head?_cons, Option.some.injEq] at hh
    subst hh
    simp [List.dropWhile_cons, hc]

theorem dropWhile_idem (p : α → Bool) (l : List α) :
    (l.dropWhile p).dropWhile p = l.dropWhile p := by
  cases h : l.dropWhile p with
  | nil => rfl
  | cons c t =>
    have hc : p c = false := head?_dropWhile_eq_some (by rw [h]; rfl)
    simp [List.dropWhile_cons, hc]

theorem getLast?_dropWhile (p : α → Bool) (l : List α) :
    l.dropWhile p = [] ∨ (l.dropWhile p).getLast? = l.getLast? := by
  induction l with
  | nil => left; rfl
  | cons x xs ih =>
    by_cases hx : p x
    · rw [List.dropWhile_cons_of_pos hx]
      rcases ih with h | h
      · left; exact h
      · cases xs with
        | nil => left; rfl
        | cons y ys =>
          right
          rw [h]
          simp
    · rw [List.dropWhile_cons_of_neg hx]
      right
      rfl

theorem pyStrip_data (s : String) :
    (pyStrip s).data = ((s.data.reverse.dropWhile pyWs).reverse).dropWhile pyWs := rfl

theorem pyStrip_idem (s : String) : pyStrip (pyStrip s) = pyStrip s := by
  apply String.ext
  rw [pyStrip_data, pyStrip_data]
  set A := s.data.reverse.dropWhile pyWs with hA
  set m := (A.reverse).dropWhile pyWs with hm
  have hrev : m.reverse.dropWhile pyWs = m.reverse := by
    rcases getLast?_dropWhile pyWs A.reverse with h | h
    · rw [← hm] at h
      rw [h]
      rfl
    · rw [← hm] at h
      rw [List.getLast?_reverse] at h
      cases hhead : A.head? with
      | none =>
        have hnone : m.getLast? = none := by rw [h, hhead]
        have hmnil : m = [] := List.getLast?_eq_none_iff.mp hnone
        rw [hmnil]
        rfl
      | some c =>
        have hc : pyWs c = false :=
          head?_dropWhile_eq_some (l := s.data.reverse) (by rw [← hA, hhead])
        have hlast : m.getLast? = some c := by rw [h, hhead]
        apply dropWhile_of_head_neg (c := c) _ hc
        rw [List.head?_reverse]
        exact hlast
  rw [hrev, List.reverse_reverse, dropWhile_idem]

/-! ## Membership and distinctness machinery for the indexed traversals -/

theorem strippedElement_eq_some {element_id raw : String} {e : TextElement}
    (h : strippedElement element_id raw = some e) :
    e.element_id = element_id ∧ e.text = pyStrip raw ∧ e.text ≠ "" := by
  unfold strippedElement at h
  by_cases hz : pyStrip raw = ""
  · simp [hz] at h
  · simp [hz] at h
    subst h
    exact ⟨rfl, rfl, hz⟩

theorem strippedElement_text {element_id raw : String} {e : TextElement}
    (h : strippedElement element_id raw = some e) :
    pyStrip e.text = e.text ∧ e.text ≠ "" := by
  obtain ⟨_, htext, hne⟩ := strippedElement_eq_some h
  refine ⟨?_, hne⟩
  rw [htext, pyStrip_idem]

theorem mem_idxMap_iff {f : Nat → α → β} :
    ∀ {l : List α} {k : Nat} {b : β},
      b ∈ idxMap f k l ↔ ∃ i, ∃ h : i < l.length, b = f (k + i) (l.get ⟨i, h⟩) := by
  intro l
  induction l with
  | nil => intro k b; simp [idxMap]
  | cons x xs ih =>
    intro k b
    simp only [idxMap, List.mem_cons]
    constructor
    · rintro (rfl | hb)
      · exact ⟨0, by simp, by simp⟩
      · obtain ⟨i, h, rfl⟩ := ih.mp hb
        refine ⟨i + 1, by simpa using Nat.succ_lt_succ h, ?_⟩
        have harith : k + 1 + i = k + (i + 1) := by omega
        rw [harith]
        rfl
    · rintro ⟨i, h, rfl⟩
      cases i with
      | zero => left; rfl
      | succ i =>
        right
        apply ih.mpr
        refine ⟨i, Nat.lt_of_succ_lt_succ h, ?_⟩
        have harith : k + 1 + i = k + (i + 1) := by omega
        rw [harith]
        rfl

theorem mem_idxFilterMap_iff {f : Nat → α → Option β} :
    ∀ {l : List α} {k : Nat} {b : β},
      b ∈ idxFilterMap f k l ↔ ∃ i, ∃ h : i < l.length, f (k + i) (l.get ⟨i, h⟩) = some b := by
  intro l
  induction l with
  | nil => intro k b; simp [idxFilterMap]
  | cons x xs ih =>
    intro k b
    rw [idxFilterMap]
    have hshift : b ∈ idxFilterMap f (k + 1) xs ↔
        ∃ i, ∃ h : i < xs.length, f (k + (i + 1)) (xs.get ⟨i, h⟩) = some b := by
      rw [ih]
      constructor
      · rintro ⟨i, h, hf⟩
        refine ⟨i, h, ?_⟩
        have harith : k + 1 + i = k + (i + 1) := by omega
        rw [← harith]
        exact hf
      · rintro ⟨i, h, hf⟩
        refine ⟨i, h, ?_⟩
        have harith : k + 1 + i = k + (i + 1) := by omega
        rw [harith]
        exact hf
    cases hfx : f k x with
    | none =>
      rw [hshift]
      constructor
      · rintro ⟨i, h, hf⟩
        exact ⟨i + 1, Nat.succ_lt_succ h, hf⟩
      · rintro ⟨i, h, hf⟩
        cases i with
        | zero =>
          rw [show (k + 0) = k by omega] at hf
          rw [show ((x :: xs).get ⟨0, h⟩) = x from rfl] at hf
          rw [hfx] at hf
          cases hf
        | succ i => exact ⟨i, Nat.lt_of_succ_lt_succ h, hf⟩
    | some e =>
      rw [List.mem_cons, hshift]
      constructor
      · rintro (rfl | ⟨i, h, hf⟩)
        · exact ⟨0, by simp, by simpa using hfx⟩
        · exact ⟨i + 1, Nat.succ_lt_succ h, hf⟩
      · rintro ⟨i, h, hf⟩
        cases i with
        | zero =>
          left
          rw [show (k + 0) = k by omega] at hf
          rw [show ((x :: xs).get ⟨0, h⟩) = x from rfl] at hf
          rw [hfx] at hf
          exact (Option.some.injEq _ _ ▸ hf).symm
        | succ i => exact Or.inr ⟨i, Nat.lt_of_succ_lt_succ h, hf⟩

theorem pairwise_idxFilterMap (f : Nat → α → Option TextElement) (g : String → Option Nat)
    (htag : ∀ i a e, f i a = some e → g e.element_id = some i) :
    ∀ (l : List α) (k : Nat),
      (idxFilterMap f k l).Pairwise (fun e e2 => e.element_id ≠ e2.element_id) := by
  intro l
  induction l with
  | nil => intro k; exact List.Pairwise.nil
  | cons x xs ih =>
    intro k
    rw [idxFilterMap]
    cases hfx : f k x with
    | none => exact ih (k + 1)
    | some e =>
      refine List.Pairwise.cons ?_ (ih (k + 1))
      intro e2 he2 heq
      obtain ⟨i, h, hfi⟩ := mem_idxFilterMap_iff.mp he2
      have h1 := htag k x e hfx
      have h2 := htag (k + 1 + i) _ e2 hfi
      rw [heq] at h1
      rw [h1] at h2
      have : k = k + 1 + i := Option.some.injEq _ _ ▸ h2
      omega

theorem pairwise_flatten_idxMap (F : Nat → α → List TextElement) (g : String → Option Nat) :
    ∀ (l : List α) (k : Nat),
      (∀ i a, a ∈ l → ∀ e ∈ F i a, g e.element_id = some i) →
      (∀ i a, a ∈ l → (F i a).Pairwise (fun e e2 => e.element_id ≠ e2.element_id)) →
      ((idxMap F k l).flatten).Pairwise (fun e e2 => e.element_id ≠ e2.element_id) := by
  intro l
  induction l with
  | nil => intro k _ _; exact List.Pairwise.nil
  | cons x xs ih =>
    intro k htag hinner
    rw [idxMap, List.flatten_cons, List.pairwise_append]
    refine ⟨hinner k x (List.mem_cons_self x xs),
      ih (k + 1) (fun i a ha => htag i a (List.mem_cons_of_mem x ha))
        (fun i a ha => hinner i a (List.mem_cons_of_mem x ha)), ?_⟩
    intro e he e2 he2 heq
    obtain ⟨sub, hsub, hmem⟩ := List.mem_flatten.mp he2
    obtain ⟨i, hi, rfl⟩ := mem_idxMap_iff.mp hsub
    have h1 := htag k x (List.mem_cons_self x xs) e he
    have h2 := htag (k + 1 + i) _ (List.mem_cons_of_mem x (List.get_mem xs i hi)) e2 hmem
    rw [heq] at h1
    rw [h1] at h2
    have : k = k + 1 + i := Option.some.injEq _ _ ▸ h2
    omega

theorem mem_flatten_idxMap_iff {F : Nat → α → List β} {l : List α} {k : Nat} {b : β} :
    b ∈ (idxMap F k l).flatten ↔ ∃ i, ∃ h : i < l.length, b ∈ F (k + i) (l.get ⟨i, h⟩) := by
  rw [List.mem_flatten]
  constructor
  · rintro ⟨sub, hsub, hmem⟩
    obtain ⟨i, hi, rfl⟩ := mem_idxMap_iff.mp hsub
    exact ⟨i, hi, hmem⟩
  · rintro ⟨i, hi, hmem⟩
    exact ⟨F (k + i) (l.get ⟨i, hi⟩), mem_idxMap_iff.mpr ⟨i, hi, rfl⟩, hmem⟩

/-! ## Per-adapter element facts -/

theorem xls_sheet_elem_spec (i : Nat) (sheet : XlsSheet) (e : TextElement)
    (he : e ∈ xls_extract_sheet i sheet) :
    ∃ cell ∈ sheet.cells, ∃ s, cell.value = XlsValue.str s ∧
      e.element_id = xls_cell_id i cell.row cell.col ∧ e.text = pyStrip s ∧
      pyStrip e.text = e.text ∧ e.text ≠ "" := by
  unfold xls_extract_sheet at he
  obtain ⟨cell, hcell, hf⟩ := List.mem_filterMap.mp he
  cases hv : cell.value with
  | str s =>
    rw [hv] at hf
    obtain ⟨hid, htext, hne⟩ := strippedElement_eq_some hf
    obtain ⟨hidem, _⟩ := strippedElement_text hf
    exact ⟨cell, hcell, s, hv, hid, htext, hidem, hne⟩
  | num n => rw [hv] at hf; cases hf
  | bool b => rw [hv] at hf; cases hf
  | formula f2 => rw [hv] at hf; cases hf
  | empty => rw [hv] at hf; cases hf

theorem ppt_shape_elem_spec (s sh : Nat) (shape : PptShape) (e : TextElement)
    (he : e ∈ ppt_extract_from_shape s sh shape) :
    ((∃ p, parse_ppt_id e.element_id = some (PptKey.par s sh p)) ∨
     (∃ r c, parse_ppt_id e.element_id = some (PptKey.cell s sh r c))) ∧
    pyStrip e.text = e.text ∧ e.text ≠ "" := by
  unfold ppt_extract_from_shape at he
  rcases List.mem_append.mp he with h | h
  · cases htf : shape.textFrame with
    | none => rw [htf] at h; cases h
    | some paragraphs =>
      rw [htf] at h
      obtain ⟨i, hi, hf⟩ := mem_idxFilterMap_iff.mp h
      obtain ⟨hid, _, _⟩ := strippedElement_eq_some hf
      exact ⟨Or.inl ⟨0 + i, by rw [hid, parse_ppt_paragraph_id]⟩, strippedElement_text hf⟩
  · cases ht : shape.table with
    | none => rw [ht] at h; cases h
    | some rows =>
      rw [ht] at h
      obtain ⟨r, hr, hmem⟩ := mem_flatten_idxMap_iff.mp h
      obtain ⟨c, hc, hf⟩ := mem_idxFilterMap_iff.mp hmem
      obtain ⟨hid, _, _⟩ := strippedElement_eq_some hf
      exact ⟨Or.inr ⟨0 + r, 0 + c, by rw [hid, parse_ppt_cell_id]⟩, strippedElement_text hf⟩

theorem ppt_shape_pairwise (s sh : Nat) (shape : PptShape) :
    (ppt_extract_from_shape s sh shape).Pairwise
      (fun e e2 => e.element_id ≠ e2.element_id) := by
  unfold ppt_extract_from_shape
  rw [List.pairwise_append]
  refine ⟨?_, ?_, ?_⟩
  · cases htf : shape.textFrame with
    | none => exact List.Pairwise.nil
    | some paragraphs =>
      apply pairwise_idxFilterMap _ (fun id =>
        match parse_ppt_id id with
        | some (PptKey.par _ _ p) => some p
        | _ => none)
      intro i a e hf
      obtain ⟨hid, _, _⟩ := strippedElement_eq_some hf
      rw [hid, parse_ppt_paragraph_id]
  · cases ht : shape.table with
    | none => exact List.Pairwise.nil
    | some rows =>
      apply pairwise_flatten_idxMap _ (fun id =>
        match parse_ppt_id id with
        | some (PptKey.cell _ _ r _) => some r
        | _ => none)
      · intro r row _ e he
        obtain ⟨c, hc, hf⟩ := mem_idxFilterMap_iff.mp he
        obtain ⟨hid, _, _⟩ := strippedElement_eq_some hf
        rw [hid, parse_ppt_cell_id]
      · intro r row _
        apply pairwise_idxFilterMap _ (fun id =>
          match parse_ppt_id id with
          | some (PptKey.cell _ _ _ c) => some c
          | _ => none)
        intro c a e hf
        obtain ⟨hid, _, _⟩ := strippedElement_eq_some hf
        rw [hid, parse_ppt_cell_id]
  · intro e he e2 he2 heq
    have hkey1 : ∃ p, parse_ppt_id e.element_id = some (PptKey.par s sh p) := by
      cases htf : shape.textFrame with
      | none => rw [htf] at he; cases he
      | some paragraphs =>
        rw [htf] at he
        obtain ⟨i, hi, hf⟩ := mem_idxFilterMap_iff.mp he
        obtain ⟨hid, _, _⟩ := strippedElement_eq_some hf
        exact ⟨0 + i, by rw [hid, parse_ppt_paragraph_id]⟩
    have hkey2 : ∃ r c, parse_ppt_id e2.element_id = some (PptKey.cell s sh r c) := by
      cases ht : shape.table with
      | none => rw [ht] at he2; cases he2
      | some rows =>
        rw [ht] at he2
        obtain ⟨r, hr, hmem⟩ := mem_flatten_idxMap_iff.mp he2
        obtain ⟨c, hc, hf⟩ := mem_idxFilterMap_iff.mp hmem
        obtain ⟨hid, _, _⟩ := strippedElement_eq_some hf
        exact ⟨0 + r, 0 + c, by rw [hid, parse_ppt_cell_id]⟩
    obtain ⟨p, hp⟩ := hkey1
    obtain ⟨r, c, hc⟩ := hkey2
    rw [heq, hc] at hp
    cases hp

theorem ppt_extract_pairwise (p : PptPresentation) :
    (ppt_extract_text p).Pairwise (fun e e2 => e.element_id ≠ e2.element_id) := by
  unfold ppt_extract_text
  apply pairwise_flatten_idxMap _ (fun id =>
    match parse_ppt_id id with
    | some (PptKey.par s _ _) => some s
    | some (PptKey.cell s _ _ _) => some s
    | none => none)
  · intro s slide _ e he
    obtain ⟨sh, hsh, hmem⟩ := mem_flatten_idxMap_iff.mp he
    obtain ⟨hkey, _⟩ := ppt_shape_elem_spec s (0 + sh) _ e hmem
    rcases hkey with ⟨pp, hp⟩ | ⟨r, c, hp⟩ <;> rw [hp]
  · intro s slide _
    apply pairwise_flatten_idxMap _ (fun id =>
      match parse_ppt_id id with
      | some (PptKey.par _ sh _) => some sh
      | some (PptKey.cell _ sh _ _) => some sh
      | none => none)
    · intro sh shape _ e he
      obtain ⟨hkey, _⟩ := ppt_shape_elem_spec s sh shape e he
      rcases hkey with ⟨pp, hp⟩ | ⟨r, c, hp⟩ <;> rw [hp]
    · intro sh shape _
      exact ppt_shape_pairwise s sh shape

theorem word_table_elem_spec (t : Nat) (table : DocxTable) (e : TextElement)
    (he : e ∈ (idxMap (fun row_index row =>
        idxFilterMap (fun col_index cell =>
          strippedElement (doc_cell_id t row_index col_index) cell.text) 0 row)
        0 table.rows).flatten) :
    (∃ r c, parse_doc_id e.element_id = some (WordKey.cell t r c)) ∧
    pyStrip e.text = e.text ∧ e.text ≠ "" := by
  obtain ⟨r, hr, hmem⟩ := mem_flatten_idxMap_iff.mp he
  obtain ⟨c, hc, hf⟩ := mem_idxFilterMap_iff.mp hmem
  obtain ⟨hid, _, _⟩ := strippedElement_eq_some hf
  exact ⟨⟨0 + r, 0 + c, by rw [hid, parse_doc_cell_id]⟩, strippedElement_text hf⟩

theorem word_elem_spec (d : DocxDocument) (e : TextElement)
    (he : e ∈ word_extract_text d) :
    ((∃ p, parse_doc_id e.element_id = some (WordKey.par p)) ∨
     (∃ t r c, parse_doc_id e.element_id = some (WordKey.cell t r c))) ∧
    pyStrip e.text = e.text ∧ e.text ≠ "" := by
  unfold word_extract_text at he
  rcases List.mem_append.mp he with h | h
  · obtain ⟨i, hi, hf⟩ := mem_idxFilterMap_iff.mp h
    obtain ⟨hid, _, _⟩ := strippedElement_eq_some hf
    exact ⟨Or.inl ⟨0 + i, by rw [hid, parse_doc_paragraph_id]⟩, strippedElement_text hf⟩
  · obtain ⟨t, ht, hmem⟩ := mem_flatten_idxMap_iff.mp h
    obtain ⟨hkey, htext⟩ := word_table_elem_spec (0 + t) _ e hmem
    obtain ⟨r, c, hk⟩ := hkey
    exact ⟨Or.inr ⟨0 + t, r, c, hk⟩, htext⟩

theorem word_extract_pairwise (d : DocxDocument) :
    (word_extract_text d).Pairwise (fun e e2 => e.element_id ≠ e2.element_id) := by
  unfold word_extract_text
  rw [List.pairwise_append]
  refine ⟨?_, ?_, ?_⟩
  · apply pairwise_idxFilterMap _ (fun id =>
      match parse_doc_id id with
      | some (WordKey.par p) => some p
      | _ => none)
    intro i a e hf
    obtain ⟨hid, _, _⟩ := strippedElement_eq_some hf
    rw [hid, parse_doc_paragraph_id]
  · apply pairwise_flatten_idxMap _ (fun id =>
      match parse_doc_id id with
      | some (WordKey.cell t _ _) => some t
      | _ => none)
    · intro t table _ e he
      obtain ⟨⟨r, c, hk⟩, _⟩ := word_table_elem_spec t table e he
      rw [hk]
    · intro t table _
      apply pairwise_flatten_idxMap _ (fun id =>
        match parse_doc_id id with
        | some (WordKey.cell _ r _) => some r
        | _ => none)
      · intro r row _ e he
        obtain ⟨c, hc, hf⟩ := mem_idxFilterMap_iff.mp he
        obtain ⟨hid, _, _⟩ := strippedElement_eq_some hf
        rw [hid, parse_doc_cell_id]
      · intro r row _
        apply pairwise_idxFilterMap _ (fun id =>
          match parse_doc_id id with
          | some (WordKey.cell _ _ c) => some c
          | _ => none)
        intro c a e hf
        obtain ⟨hid, _, _⟩ := strippedElement_eq_some hf
        rw [hid, parse_doc_cell_id]
  · intro e he e2 he2 heq
    obtain ⟨i, hi, hf⟩ := mem_idxFilterMap_iff.mp he
    obtain ⟨hid, _, _⟩ := strippedElement_eq_some hf
    obtain ⟨t, ht, hmem⟩ := mem_flatten_idxMap_iff.mp he2
    obtain ⟨⟨r, c, hk⟩, _⟩ := word_table_elem_spec (0 + t) _ e2 hmem
    have hp : parse_doc_id e.element_id = some (WordKey.par (0 + i)) := by
      rw [hid, parse_doc_paragraph_id]
    rw [heq, hk] at hp
    cases hp

theorem xls_extract_pairwise (w : XlsWorkbook) (hw : xls_coords_ok w) :
    (xls_extract_text w).Pairwise (fun e e2 => e.element_id ≠ e2.element_id) := by
  unfold xls_extract_text
  apply pairwise_flatten_idxMap _ (fun id =>
    match parse_xls_id id with
    | some (s, _, _) => some s
    | none => none)
  · intro i sheet _ e he
    obtain ⟨cell, hcell, s2, hv, hid, _⟩ := xls_sheet_elem_spec i sheet e he
    rw [hid, parse_xls_cell_id]
  · intro i sheet hs
    unfold xls_extract_sheet
    refine List.Pairwise.filterMap _ ?_ (hw sheet hs)
    intro cell cell2 hne e he e2 he2 heq
    have h1 : e.element_id = xls_cell_id i cell.row cell.col := by
      cases hv : cell.value with
      | str s2 =>
        rw [hv] at he
        exact (strippedElement_eq_some (Option.mem_def.mp he)).1
      | num n => rw [hv] at he; cases he
      | bool b => rw [hv] at he; cases he
      | formula f2 => rw [hv] at he; cases he
      | empty => rw [hv] at he; cases he
    have h2 : e2.element_id = xls_cell_id i cell2.row cell2.col := by
      cases hv : cell2.value with
      | str s2 =>
        rw [hv] at he2
        exact (strippedElement_eq_some (Option.mem_def.mp he2)).1
      | num n => rw [hv] at he2; cases he2
      | bool b => rw [hv] at he2; cases he2
      | formula f2 => rw [hv] at he2; cases he2
      | empty => rw [hv] at he2; cases he2
    have hids : xls_cell_id i cell.row cell.col = xls_cell_id i cell2.row cell2.col := by
      rw [← h1, ← h2, heq]
    have hp := parse_xls_cell_id i cell.row cell.col
    rw [hids, parse_xls_cell_id] at hp
    simp only [Option.some.injEq, Prod.mk.injEq] at hp
    exact hne ⟨hp.2.1.symm, hp.2.2.symm⟩

theorem ppt_elem_text (p : PptPresentation) (e : TextElement)
    (he : e ∈ ppt_extract_text p) : pyStrip e.text = e.text ∧ e.text ≠ "" := by
  unfold ppt_extract_text at he
  obtain ⟨s, hs, hmem⟩ := mem_flatten_idxMap_iff.mp he
  obtain ⟨sh, hsh, hmem2⟩ := mem_flatten_idxMap_iff.mp hmem
  exact (ppt_shape_elem_spec _ _ _ e hmem2).2

theorem xls_elem_text (w : XlsWorkbook) (e : TextElement)
    (he : e ∈ xls_extract_text w) : pyStrip e.text = e.text ∧ e.text ≠ "" := by
  unfold xls_extract_text at he
  obtain ⟨i, hi, hmem⟩ := mem_flatten_idxMap_iff.mp he
  obtain ⟨cell, hcell, s2, hv, hid, htext, hidem, hne⟩ := xls_sheet_elem_spec _ _ e hmem
  exact ⟨hidem, hne⟩

/-! ## Claim theorems: document handlers -/

/-- C7: every element emitted by the spreadsheet adapter comes from a cell
whose value is a string (so a cell holding a number, boolean, formula or
nothing is never emitted), and carries that cell's id and stripped text. -/
theorem xls_extract_only_string_cells (w : XlsWorkbook) (e : TextElement)
    (he : e ∈ xls_extract_text w) :
    ∃ sheet_index, ∃ h : sheet_index < w.sheets.length,
      ∃ cell ∈ (w.sheets.get ⟨sheet_index, h⟩).cells, ∃ s,
        cell.value = XlsValue.str s ∧
        e.element_id = xls_cell_id sheet_index cell.row cell.col ∧
        e.text = pyStrip s := by
  unfold xls_extract_text at he
  obtain ⟨i, hi, hmem⟩ := mem_flatten_idxMap_iff.mp he
  rw [Nat.zero_add] at hmem
  obtain ⟨cell, hcell, s, hv, hid, htext, _, _⟩ := xls_sheet_elem_spec i _ e hmem
  exact ⟨i, hi, cell, hcell, s, hv, hid, htext⟩

theorem xls_extract_only_string_cells_witness :
    ∃ sheet_index, ∃ h : sheet_index < sampleXls.sheets.length,
      ∃ cell ∈ (sampleXls.sheets.get ⟨sheet_index, h⟩).cells, ∃ s,
        cell.value = XlsValue.str s ∧
        (TextElement.mk "xls_s0_r1_c1" "hi").element_id =
          xls_cell_id sheet_index cell.row cell.col ∧
        (TextElement.mk "xls_s0_r1_c1" "hi").text = pyStrip s :=
  xls_extract_only_string_cells sampleXls ⟨"xls_s0_r1_c1", "hi"⟩ (by decide)

/-- C9: within one `extract_text` call of any of the three adapters, the
returned ids are pairwise distinct, and every returned element's text is
trimmed and non-empty (for the spreadsheet adapter, distinctness rests on
the workbook invariant that cells occupy distinct grid coordinates). -/
theorem extract_text_invariants :
    (∀ p : PptPresentation,
        ((ppt_extract_text p).map TextElement.element_id).Nodup ∧
        ∀ e ∈ ppt_extract_text p, pyStrip e.text = e.text ∧ e.text ≠ "") ∧
    (∀ d : DocxDocument,
        ((word_extract_text d).map TextElement.element_id).Nodup ∧
        ∀ e ∈ word_extract_text d, pyStrip e.text = e.text ∧ e.text ≠ "") ∧
    (∀ w : XlsWorkbook, xls_coords_ok w →
        ((xls_extract_text w).map TextElement.element_id).Nodup ∧
        ∀ e ∈ xls_extract_text w, pyStrip e.text = e.text ∧ e.text ≠ "") := by
  have hnodup : ∀ (L : List TextElement),
      L.Pairwise (fun e e2 => e.element_id ≠ e2.element_id) →
      (L.map TextElement.element_id).Nodup := by
    intro L h
    show (L.map TextElement.element_id).Pairwise (fun a b => a ≠ b)
    rw [List.pairwise_map]
    exact h
  refine ⟨fun p => ⟨hnodup _ (ppt_extract_pairwise p), fun e he => ppt_elem_text p e he⟩,
    fun d => ⟨hnodup _ (word_extract_pairwise d), fun e he => (word_elem_spec d e he).2⟩,
    fun w hw => ⟨hnodup _ (xls_extract_pairwise w hw), fun e he => xls_elem_text w e he⟩⟩

theorem extract_text_invariants_witness :
    ((ppt_extract_text samplePpt).map TextElement.element_id).Nodup ∧
    ((word_extract_text sampleDocx).map TextElement.element_id).Nodup ∧
    ((xls_extract_text sampleXls).map TextElement.element_id).Nodup ∧
    (pyStrip (TextElement.mk "ppt_s0_sh0_p0" "Title").text =
        (TextElement.mk "ppt_s0_sh0_p0" "Title").text ∧
      (TextElement.mk "ppt_s0_sh0_p0" "Title").text ≠ "") :=
  ⟨(extract_text_invariants.1 samplePpt).1,
   (extract_text_invariants.2.1 sampleDocx).1,
   (extract_text_invariants.2.2 sampleXls (by
      intro sheet hs
      rw [show sampleXls.sheets = [sampleXls.sheets.get ⟨0, by decide⟩] from rfl,
        List.mem_singleton] at hs
      subst hs
      decide)).1,
   (extract_text_invariants.1 samplePpt).2 ⟨"ppt_s0_sh0_p0", "Title"⟩ (by decide)⟩

theorem idxMap_getElem? {f : Nat → α → β} :
    ∀ {l : List α} {k i : Nat}, (idxMap f k l)[i]? = (l[i]?).map (f (k + i)) := by
  intro l
  induction l with
  | nil => intro k i; simp [idxMap]
  | cons x xs ih =>
    intro k i
    cases i with
    | zero => simp [idxMap]
    | succ i =>
      have hcons : (idxMap f k (x :: xs)) = f k x :: idxMap f (k + 1) xs := rfl
      rw [hcons, List.getElem?_cons_succ, List.getElem?_cons_succ, ih,
        show k + 1 + i = k + (i + 1) from by omega]

theorem ppt_apply_frame_paragraph (p : PptPresentation) (m : String → Option String)
    (s sh i : Nat) (hm : m (ppt_paragraph_id s sh i) = none) :
    ppt_get_paragraph (ppt_apply_translations p m) s sh i = ppt_get_paragraph p s sh i := by
  simp only [ppt_get_paragraph, ppt_apply_translations, idxMap_getElem?, Nat.zero_add]
  rcases hslide : p.slides[s]? with _ | slide
  · rfl
  · simp only [Option.map_some', Option.some_bind, idxMap_getElem?, Nat.zero_add]
    rcases hshape : slide.shapes[sh]? with _ | shape
    · rfl
    · simp only [Option.map_some', Option.some_bind, ppt_apply_to_shape]
      rcases htf : shape.textFrame with _ | paras
      · rfl
      · simp only [Option.map_some', Option.some_bind, idxMap_getElem?, Nat.zero_add]
        rcases hpara : paras[i]? with _ | para
        · rfl
        · simp only [Option.map_some', hm]

theorem ppt_apply_frame_cell (p : PptPresentation) (m : String → Option String)
    (s sh r c : Nat) (hm : m (ppt_cell_id s sh r c) = none) :
    ppt_get_cell (ppt_apply_translations p m) s sh r c = ppt_get_cell p s sh r c := by
  simp only [ppt_get_cell, ppt_apply_translations, idxMap_getElem?, Nat.zero_add]
  rcases hslide : p.slides[s]? with _ | slide
  · rfl
  · simp only [Option.map_some', Option.some_bind, idxMap_getElem?, Nat.zero_add]
    rcases hshape : slide.shapes[sh]? with _ | shape
    · rfl
    · simp only [Option.map_some', Option.some_bind, ppt_apply_to_shape]
      rcases ht : shape.table with _ | rows
      · rfl
      · simp only [Option.map_some', Option.some_bind, idxMap_getElem?, Nat.zero_add]
        rcases hrow : rows[r]? with _ | row
        · rfl
        · simp only [Option.map_some', Option.some_bind, idxMap_getElem?, Nat.zero_add]
          rcases hcell : row[c]? with _ | cell
          · rfl
          · simp only [Option.map_some', hm]

theorem word_apply_frame_paragraph (d : DocxDocument) (m : String → Option String)
    (fn : Option String) (i : Nat) (hm : m (doc_paragraph_id i) = none) :
    word_get_paragraph (word_apply_translations d m fn) i = word_get_paragraph d i := by
  simp only [word_get_paragraph, word_apply_translations, idxMap_getElem?, Nat.zero_add]
  rcases hpara : d.paragraphs[i]? with _ | para
  · rfl
  · simp only [Option.map_some', hm]

theorem word_apply_frame_cell (d : DocxDocument) (m : String → Option String)
    (fn : Option String) (t r c : Nat) (hm : m (doc_cell_id t r c) = none) :
    word_get_cell (word_apply_translations d m fn) t r c = word_get_cell d t r c := by
  simp only [word_get_cell, word_apply_translations, idxMap_getElem?, Nat.zero_add]
  rcases htab : d.tables[t]? with _ | table
  · rfl
  · simp only [Option.map_some', Option.some_bind, idxMap_getElem?, Nat.zero_add]
    rcases hrow : table.rows[r]? with _ | row
    · rfl
    · simp only [Option.map_some', Option.some_bind, idxMap_getElem?, Nat.zero_add]
      rcases hcell : row[c]? with _ | cell
      · rfl
      · simp only [Option.map_some', hm]

theorem xls_apply_frame_cell (w : XlsWorkbook) (m : String → Option String)
    (fn : Option String) (s i : Nat) (cell : XlsCell)
    (hget : xls_get_cell w s i = some cell)
    (hm : m (xls_cell_id s cell.row cell.col) = none) :
    xls_get_cell (xls_apply_translations w m fn) s i = some cell := by
  simp only [xls_get_cell, xls_apply_translations, idxMap_getElem?, Nat.zero_add] at hget ⊢
  rcases hsheet : w.sheets[s]? with _ | sheet
  · rw [hsheet] at hget
    cases hget
  · rw [hsheet] at hget
    simp only [Option.some_bind] at hget
    simp only [Option.map_some', Option.some_bind, List.getElem?_map]
    rw [hget, Option.map_some', hm]

/-- C8: in all three adapters, `apply_translations` leaves every
text-bearing location whose id is not mapped untouched (identical paragraph
or cell value, no clearing, no error); only mapped ids are rewritten. -/
theorem apply_translations_frame :
    (∀ (p : PptPresentation) (m : String → Option String) (s sh i : Nat),
        m (ppt_paragraph_id s sh i) = none →
        ppt_get_paragraph (ppt_apply_translations p m) s sh i = ppt_get_paragraph p s sh i) ∧
    (∀ (p : PptPresentation) (m : String → Option String) (s sh r c : Nat),
        m (ppt_cell_id s sh r c) = none →
        ppt_get_cell (ppt_apply_translations p m) s sh r c = ppt_get_cell p s sh r c) ∧
    (∀ (d : DocxDocument) (m : String → Option String) (fn : Option String) (i : Nat),
        m (doc_paragraph_id i) = none →
        word_get_paragraph (word_apply_translations d m fn) i = word_get_paragraph d i) ∧
    (∀ (d : DocxDocument) (m : String → Option String) (fn : Option String) (t r c : Nat),
        m (doc_cell_id t r c) = none →
        word_get_cell (word_apply_translations d m fn) t r c = word_get_cell d t r c) ∧
    (∀ (w : XlsWorkbook) (m : String → Option String) (fn : Option String) (s i : Nat)
        (cell : XlsCell),
        xls_get_cell w s i = some cell →
        m (xls_cell_id s cell.row cell.col) = none →
        xls_get_cell (xls_apply_translations w m fn) s i = some cell) :=
  ⟨ppt_apply_frame_paragraph, ppt_apply_frame_cell, word_apply_frame_paragraph,
    word_apply_frame_cell, xls_apply_frame_cell⟩

theorem apply_translations_frame_witness :
    ppt_get_paragraph (ppt_apply_translations samplePpt (fun _ => none)) 0 0 0 =
      ppt_get_paragraph samplePpt 0 0 0 ∧
    ppt_get_cell (ppt_apply_translations samplePpt (fun _ => none)) 0 0 0 0 =
      ppt_get_cell samplePpt 0 0 0 0 ∧
    word_get_paragraph (word_apply_translations sampleDocx (fun _ => none) none) 0 =
      word_get_paragraph sampleDocx 0 ∧
    word_get_cell (word_apply_translations sampleDocx (fun _ => none) none) 0 0 0 =
      word_get_cell sampleDocx 0 0 0 ∧
    xls_get_cell (xls_apply_translations sampleXls (fun _ => none) none) 0 0 =
      some { row := 1, col := 1, value := XlsValue.str " hi ", fontName := none } :=
  ⟨apply_translations_frame.1 samplePpt (fun _ => none) 0 0 0 rfl,
   apply_translations_frame.2.1 samplePpt (fun _ => none) 0 0 0 0 rfl,
   apply_translations_frame.2.2.1 sampleDocx (fun _ => none) none 0 rfl,
   apply_translations_frame.2.2.2.1 sampleDocx (fun _ => none) none 0 0 0 rfl,
   apply_translations_frame.2.2.2.2 sampleXls (fun _ => none) none 0 0
     { row := 1, col := 1, value := XlsValue.str " hi ", fontName := none } (by decide) rfl⟩
